import Mathlib

/-!
# wup2slack: a verification development

A shallow embedding of `main.go` (the WhatsApp to Slack relay) and theorems about
its linked-account directory, channel resolution, webhook handlers and channel
metadata encoding.

Conventions of the embedding.

* A Go `string` or `[]byte` is the list of its byte values (`GoString`); Go strings
  are arbitrary byte sequences and need not be valid UTF-8. String literals of the
  source are written `str "..."`, their UTF-8 bytes.
* A Go `error` result is an `Except GoError _`; a Go runtime panic is `none`. The loops
  whose number of iterations depends on what a collaborator answers take a bound on
  it, and return `none` when the bound is reached.
* The libraries the program calls (`net/http`, `fastjson`, `encoding/json`, `unicode/utf8`,
  `slack`) are modelled from their documented behaviour, as far as the program uses them.
* Interfaces (`FbClient`, `SlackClient`, `LinkedAccountStore`) are records of
  state-passing functions over an arbitrary world state, so a handler can be run
  against any implementation, mock or real.
* Handlers return, next to the response writer, the log of the interface calls they
  made, in order.
-/

set_option autoImplicit false

namespace Wup2Slack

/-! ## Strings -/

/-- A Go string or byte slice, as the list of its byte values (each below 256). -/
abbrev GoString := List Nat

/-- The constant `utf8.RuneError`, U+FFFD. -/
def RuneError : Nat := 0xFFFD

/-- The function `utf8.AppendRune` of the Go library: the UTF-8 bytes of a rune, those of
U+FFFD for a surrogate or a value beyond U+10FFFF. -/
def encodeRune (r : Nat) : GoString :=
  if r < 0x80 then [r]
  else if r < 0x800 then [0xC0 + r / 64, 0x80 + r % 64]
  else if (0xD800 ≤ r ∧ r ≤ 0xDFFF) ∨ 0x10FFFF < r then [0xEF, 0xBF, 0xBD]
  else if r < 0x10000 then [0xE0 + r / 4096, 0x80 + r / 64 % 64, 0x80 + r % 64]
  else [0xF0 + r / 262144, 0x80 + r / 4096 % 64, 0x80 + r / 64 % 64, 0x80 + r % 64]

/-- The function `utf8.DecodeRune` of the Go library: the first rune of the bytes and its
width; `(RuneError, 1)` when they do not start with a well-formed encoding, `(RuneError, 0)`
when there are none. -/
def decodeRune : GoString → Nat × Nat
  | [] => (RuneError, 0)
  | p0 :: rest =>
    if p0 < 0x80 then (p0, 1)
    else if 0xC2 ≤ p0 ∧ p0 ≤ 0xDF then
      match rest with
      | b1 :: _ =>
        if 0x80 ≤ b1 ∧ b1 ≤ 0xBF then (p0 % 32 * 64 + b1 % 64, 2) else (RuneError, 1)
      | _ => (RuneError, 1)
    else if 0xE0 ≤ p0 ∧ p0 ≤ 0xEF then
      match rest with
      | b1 :: b2 :: _ =>
        if (if p0 = 0xE0 then 0xA0 else 0x80) ≤ b1 ∧ b1 ≤ (if p0 = 0xED then 0x9F else 0xBF) ∧
            0x80 ≤ b2 ∧ b2 ≤ 0xBF then
          (p0 % 16 * 4096 + b1 % 64 * 64 + b2 % 64, 3)
        else (RuneError, 1)
      | _ => (RuneError, 1)
    else if 0xF0 ≤ p0 ∧ p0 ≤ 0xF4 then
      match rest with
      | b1 :: b2 :: b3 :: _ =>
        if (if p0 = 0xF0 then 0x90 else 0x80) ≤ b1 ∧ b1 ≤ (if p0 = 0xF4 then 0x8F else 0xBF) ∧
            0x80 ≤ b2 ∧ b2 ≤ 0xBF ∧ 0x80 ≤ b3 ∧ b3 ≤ 0xBF then
          (p0 % 8 * 262144 + b1 % 64 * 4096 + b2 % 64 * 64 + b3 % 64, 4)
        else (RuneError, 1)
      | _ => (RuneError, 1)
    else (RuneError, 1)

/-- The bytes of a Go string holding the given text (UTF-8), as for a literal of the source. -/
def str (s : String) : GoString :=
  s.toList.flatMap (fun c => encodeRune c.toNat)

/-- A Go `error` value. -/
structure GoError where
  message : String
  deriving DecidableEq, Repr

/-- Equality of results is decidable, so that the functions below can be evaluated
and compared on concrete inputs. -/
instance instDecidableEqExcept {ε α : Type} [DecidableEq ε] [DecidableEq α] :
    DecidableEq (Except ε α)
  | .ok a, .ok b => if h : a = b then isTrue (by rw [h]) else isFalse (by intro hc; cases hc; exact h rfl)
  | .error a, .error b =>
    if h : a = b then isTrue (by rw [h]) else isFalse (by intro hc; cases hc; exact h rfl)
  | .ok _, .error _ => isFalse (by intro hc; cases hc)
  | .error _, .ok _ => isFalse (by intro hc; cases hc)

/-! ## The linked-account directory (`main.go` 160-195) -/

/-- The struct `LinkedAccount`. -/
structure LinkedAccount where
  WhatsappBusinessPhoneNumberId : GoString
  SlackUserId : GoString
  deriving DecidableEq, Repr

/-- The struct `LinkedAccountFileStore`. -/
structure LinkedAccountFileStore where
  linkedAccounts : List LinkedAccount
  deriving Repr

/-- The loop of `lookupLinkedAccount` over the remaining entries. -/
def lookupLoop (id : GoString) : List LinkedAccount → Except GoError LinkedAccount
  | [] => .error ⟨"linkedAccount not found"⟩
  | la :: rest =>
    if la.WhatsappBusinessPhoneNumberId == id || la.SlackUserId == id then .ok la
    else lookupLoop id rest

/-- The method `LinkedAccountFileStore.lookupLinkedAccount`. -/
def LinkedAccountFileStore.lookupLinkedAccount (t : LinkedAccountFileStore) (id : GoString) :
    Except GoError LinkedAccount :=
  lookupLoop id t.linkedAccounts


/-! ## HTTP plumbing -/

/-- An `http.ResponseWriter`: the status code of the header once it has been sent, the
body bytes accepted so far, and the error every `Write` returns when the connection
no longer takes data (`none` for a healthy connection or a test recorder). -/
structure ResponseWriter where
  status : Option Nat
  body : GoString
  writeErr : Option GoError
  deriving DecidableEq, Repr

/-- The writer a handler receives: nothing sent yet. -/
def ResponseWriter.fresh (writeErr : Option GoError) : ResponseWriter :=
  { status := none, body := [], writeErr := writeErr }

/-- The method `WriteHeader`: sends the header with the given status code; a second call is ignored. -/
def ResponseWriter.WriteHeader (w : ResponseWriter) (code : Nat) : ResponseWriter :=
  match w.status with
  | some _ => w
  | none => { w with status := some code }

/-- The method `Write`: sends the header with status 200 when none was sent, then the data. -/
def ResponseWriter.Write (w : ResponseWriter) (data : GoString) : Except GoError Unit × ResponseWriter :=
  let w1 := w.WriteHeader 200
  match w1.writeErr with
  | some e => (.error e, w1)
  | none => (.ok (), { w1 with body := w1.body ++ data })

/-- The status code the client receives once the handler has returned: the one sent, or
200 when the handler never wrote a header. -/
def ResponseWriter.code (w : ResponseWriter) : Nat :=
  w.status.getD 200

/-- The result of `r.URL.Query()`: for each parameter name, the list of its values in
order of appearance (empty for a name the query string lacks). -/
abbrev Values := GoString → List GoString

/-- Indexing `values[0]` of a slice: a runtime panic on an empty slice. -/
def first (values : List GoString) : Option GoString :=
  values.head?

def StatusOK : Nat := 200
def StatusBadRequest : Nat := 400
def StatusForbidden : Nat := 403
def StatusInternalServerError : Nat := 500

/-! ## The WhatsApp verification handshake (`main.go` 282-303) -/

/-- The handler returned by `resolveWhatsappVerificationChallenge`; `none` is a runtime panic. -/
def resolveWhatsappVerificationChallenge (whatsappWebhookVerifyToken : GoString)
    (w : ResponseWriter) (query : Values) : Option ResponseWriter :=
  match first (query (str "hub.mode")) with
  | none => none
  | some mode =>
  match first (query (str "hub.verify_token")) with
  | none => none
  | some token =>
  match first (query (str "hub.challenge")) with
  | none => none
  | some challenge =>
    if mode == str "subscribe" && token == whatsappWebhookVerifyToken then
      let w1 := w.WriteHeader 200
      match w1.Write challenge with
      | (.error _, w2) => some (w2.WriteHeader StatusInternalServerError)
      | (.ok _, w2) => some w2
    else
      some (w.WriteHeader StatusForbidden)

/-! ## JSON values -/

/-- A parsed JSON value. String values and object keys hold the decoded bytes, numbers
their source text; object members are kept in order of appearance. -/
inductive JValue where
  | null
  | bool (b : Bool)
  | number (raw : GoString)
  | string (s : GoString)
  | array (elems : List JValue)
  | object (members : List (GoString × JValue))

/-! ## `encoding/json`: encoding a string (`appendString` with HTML escaping, as `json.Marshal` uses it) -/

/-- The table `hex` of `encoding/json`: the lower-case hexadecimal digit of a value below 16. -/
def hex (n : Nat) : Nat :=
  if n < 10 then 0x30 + n else 0x61 + (n - 10)

/-- The table `htmlSafeSet`: the ASCII bytes that are written as they are, all from the
space on except the double quote, the backslash, `<`, `>` and `&`. -/
def htmlSafe (b : Nat) : Bool :=
  0x20 ≤ b && b < 0x80 && b != 0x22 && b != 0x5C && b != 0x3C && b != 0x3E && b != 0x26

/-- The escape written for an ASCII byte outside `htmlSafeSet` (as of Go 1.22; earlier
versions write `\u0008` and `\u000c` for the backspace and the form feed, which decode
alike). -/
def escapeByte (b : Nat) : GoString :=
  if b = 0x5C ∨ b = 0x22 then [0x5C, b]
  else if b = 0x08 then [0x5C, 0x62]
  else if b = 0x0C then [0x5C, 0x66]
  else if b = 0x0A then [0x5C, 0x6E]
  else if b = 0x0D then [0x5C, 0x72]
  else if b = 0x09 then [0x5C, 0x74]
  else [0x5C, 0x75, 0x30, 0x30, hex (b / 16), hex (b % 16)]

/-- The loop of `appendString` from position `i` on, `src` being the bytes from `i`; the
first argument bounds the number of iterations. -/
def appendStringLoop : Nat → GoString → GoString
  | 0, _ => []
  | _ + 1, [] => []
  | fuel + 1, b :: rest =>
    if b < 0x80 then
      (if htmlSafe b then [b] else escapeByte b) ++ appendStringLoop fuel rest
    else
      let (c, size) := decodeRune (b :: rest)
      if c = RuneError ∧ size = 1 then
        str "\\ufffd" ++ appendStringLoop fuel rest
      else if c = 0x2028 ∨ c = 0x2029 then
        str "\\u202" ++ [hex (c % 16)] ++ appendStringLoop fuel ((b :: rest).drop size)
      else
        (b :: rest).take size ++ appendStringLoop fuel ((b :: rest).drop size)

/-- The function `appendString`: the JSON string literal of a Go string. -/
def appendString (src : GoString) : GoString :=
  [0x22] ++ appendStringLoop src.length src ++ [0x22]

/-! ## `encoding/json`: scanning and decoding -/

/-- The function `isSpace` of the scanner. -/
def isSpace (c : Nat) : Bool :=
  c == 0x20 || c == 0x09 || c == 0x0D || c == 0x0A

/-- Skipping the white space before a token. -/
def skipSpace : GoString → GoString
  | [] => []
  | c :: rest => if isSpace c then skipSpace rest else c :: rest

def isHexDigit (c : Nat) : Bool :=
  (0x30 ≤ c && c ≤ 0x39) || (0x61 ≤ c && c ≤ 0x66) || (0x41 ≤ c && c ≤ 0x46)

def isDigit (c : Nat) : Bool :=
  0x30 ≤ c && c ≤ 0x39

/-- The scanner inside a string literal, after the opening quote (`stateInString`,
`stateInStringEsc`, `stateInStringEscU...`): the bytes of the literal up to its closing
quote and the input after it, or `none` for an invalid literal. -/
def scanString : GoString → Option (GoString × GoString)
  | [] => none
  | c :: rest =>
    if c = 0x22 then some ([], rest)
    else if c = 0x5C then
      match rest with
      | [] => none
      | e :: rest1 =>
        if e = 0x62 ∨ e = 0x66 ∨ e = 0x6E ∨ e = 0x72 ∨ e = 0x74 ∨ e = 0x5C ∨ e = 0x2F ∨ e = 0x22 then
          (scanString rest1).map fun p => (c :: e :: p.1, p.2)
        else if e = 0x75 then
          match rest1 with
          | h1 :: h2 :: h3 :: h4 :: rest2 =>
            if isHexDigit h1 && isHexDigit h2 && isHexDigit h3 && isHexDigit h4 then
              (scanString rest2).map fun p => (c :: e :: h1 :: h2 :: h3 :: h4 :: p.1, p.2)
            else none
          | _ => none
        else none
    else if c < 0x20 then none
    else (scanString rest).map fun p => (c :: p.1, p.2)

/-- The value of a hexadecimal digit. -/
def hexValue (c : Nat) : Option Nat :=
  if 0x30 ≤ c ∧ c ≤ 0x39 then some (c - 0x30)
  else if 0x61 ≤ c ∧ c ≤ 0x66 then some (c - 0x61 + 10)
  else if 0x41 ≤ c ∧ c ≤ 0x46 then some (c - 0x41 + 10)
  else none

/-- The function `getu4`: the value of a `\uXXXX` escape at the head of the bytes, `none`
(the Go `-1`) when they do not start with one. -/
def getu4 : GoString → Option Nat
  | 0x5C :: 0x75 :: h1 :: h2 :: h3 :: h4 :: _ =>
    match hexValue h1, hexValue h2, hexValue h3, hexValue h4 with
    | some a, some b, some c, some d => some (((a * 16 + b) * 16 + c) * 16 + d)
    | _, _, _, _ => none
  | _ => none

/-- The function `utf16.IsSurrogate`. -/
def isSurrogate (r : Nat) : Bool :=
  0xD800 ≤ r && r < 0xE000

/-- The function `utf16.DecodeRune` on a first half and what `getu4` found after it: the
rune of a valid surrogate pair, U+FFFD otherwise. -/
def utf16DecodeRune (r1 : Nat) (r2 : Option Nat) : Nat :=
  match r2 with
  | some r2 =>
    if 0xD800 ≤ r1 ∧ r1 < 0xDC00 ∧ 0xDC00 ≤ r2 ∧ r2 < 0xE000 then
      (r1 - 0xD800) * 1024 + (r2 - 0xDC00) + 0x10000
    else RuneError
  | none => RuneError

/-- The decoding loop of `unquoteBytes` on the bytes between the quotes of a literal; the
first argument bounds the number of iterations. `none` is the `ok == false` result. -/
def unquoteLoop : Nat → GoString → Option GoString
  | 0, _ => none
  | _ + 1, [] => some []
  | fuel + 1, c :: rest =>
    if c = 0x5C then
      match rest with
      | [] => none
      | e :: rest1 =>
        if e = 0x22 ∨ e = 0x5C ∨ e = 0x2F ∨ e = 0x27 then (unquoteLoop fuel rest1).map (e :: ·)
        else if e = 0x62 then (unquoteLoop fuel rest1).map (0x08 :: ·)
        else if e = 0x66 then (unquoteLoop fuel rest1).map (0x0C :: ·)
        else if e = 0x6E then (unquoteLoop fuel rest1).map (0x0A :: ·)
        else if e = 0x72 then (unquoteLoop fuel rest1).map (0x0D :: ·)
        else if e = 0x74 then (unquoteLoop fuel rest1).map (0x09 :: ·)
        else if e = 0x75 then
          match getu4 (c :: rest) with
          | none => none
          | some rr =>
            let after := (c :: rest).drop 6
            if isSurrogate rr then
              let dec := utf16DecodeRune rr (getu4 after)
              if dec ≠ RuneError then
                (unquoteLoop fuel (after.drop 6)).map (encodeRune dec ++ ·)
              else
                (unquoteLoop fuel after).map (encodeRune RuneError ++ ·)
            else
              (unquoteLoop fuel after).map (encodeRune rr ++ ·)
        else none
    else if c = 0x22 ∨ c < 0x20 then none
    else if c < 0x80 then (unquoteLoop fuel rest).map (c :: ·)
    else
      let (rr, size) := decodeRune (c :: rest)
      (unquoteLoop fuel ((c :: rest).drop size)).map (encodeRune rr ++ ·)

/-- The function `unquoteBytes` on the bytes between the quotes of a string literal: the
string it denotes, ill-formed UTF-8 replaced by U+FFFD. -/
def unquote (raw : GoString) : Option GoString :=
  unquoteLoop (raw.length + 1) raw

/-- The digits at the head of the input, and the input after them. -/
def spanDigits : GoString → GoString × GoString
  | [] => ([], [])
  | c :: rest =>
    if isDigit c then ((spanDigits rest).1.cons c, (spanDigits rest).2) else ([], c :: rest)

/-- The exponent part of a number, if the input goes on with one (`stateE`, `stateESign`,
`stateE0`). -/
def scanExponent (s : GoString) : Option (GoString × GoString) :=
  match s with
  | c :: rest =>
    if c = 0x65 ∨ c = 0x45 then
      match rest with
      | sign :: rest1 =>
        if sign = 0x2B ∨ sign = 0x2D then
          match spanDigits rest1 with
          | ([], _) => none
          | (ds, rest2) => some (c :: sign :: ds, rest2)
        else
          match spanDigits rest with
          | ([], _) => none
          | (ds, rest2) => some (c :: ds, rest2)
      | [] => none
    else some ([], s)
  | [] => some ([], s)

/-- The fraction part of a number, if the input goes on with one (`stateDot`, `stateDot0`). -/
def scanFraction (s : GoString) : Option (GoString × GoString) :=
  match s with
  | 0x2E :: rest =>
    match spanDigits rest with
    | ([], _) => none
    | (ds, rest1) => some (0x2E :: ds, rest1)
  | _ => some ([], s)

/-- The integer part of a number (`state0`, `state1`). -/
def scanInteger (s : GoString) : Option (GoString × GoString) :=
  match s with
  | c :: rest =>
    if c = 0x30 then some ([c], rest)
    else if 0x31 ≤ c ∧ c ≤ 0x39 then some (c :: (spanDigits rest).1, (spanDigits rest).2)
    else none
  | [] => none

/-- The scanner on a number (`stateNeg` on): its text and the input after it. -/
def scanNumber (s : GoString) : Option (GoString × GoString) :=
  let signed := match s with
    | 0x2D :: rest => ([0x2D], rest)
    | _ => ([], s)
  match scanInteger signed.2 with
  | none => none
  | some (int, rest1) =>
    match scanFraction rest1 with
    | none => none
    | some (frac, rest2) =>
      match scanExponent rest2 with
      | none => none
      | some (exp, rest3) => some (signed.1 ++ int ++ frac ++ exp, rest3)

/-- The input after the given literal word, when the input starts with it. -/
def dropWord (word : GoString) (s : GoString) : Option GoString :=
  if word.isPrefixOf s then some (s.drop word.length) else none

/-- The constant `maxNestingDepth` of the scanner. -/
def maxNestingDepth : Nat := 10000

mutual

/-- A JSON value at the head of the input, after optional white space, as the scanner of
`encoding/json` accepts it: the value and the input after it. The first argument bounds
the recursion, the second is the number of further nesting levels the scanner allows. -/
def parseValue : Nat → Nat → GoString → Option (JValue × GoString)
  | 0, _, _ => none
  | fuel + 1, depth, s =>
    match skipSpace s with
    | [] => none
    | c :: rest =>
      if c = 0x7B then
        match depth with
        | 0 => none
        | depth1 + 1 =>
          match skipSpace rest with
          | 0x7D :: rest1 => some (.object [], rest1)
          | _ => (parseMembers fuel depth1 rest).map fun p => (.object p.1, p.2)
      else if c = 0x5B then
        match depth with
        | 0 => none
        | depth1 + 1 =>
          match skipSpace rest with
          | 0x5D :: rest1 => some (.array [], rest1)
          | _ => (parseElements fuel depth1 rest).map fun p => (.array p.1, p.2)
      else if c = 0x22 then
        match scanString rest with
        | none => none
        | some (raw, rest1) => (unquote raw).map fun v => (.string v, rest1)
      else if c = 0x74 then (dropWord (str "true") (c :: rest)).map fun r => (.bool true, r)
      else if c = 0x66 then (dropWord (str "false") (c :: rest)).map fun r => (.bool false, r)
      else if c = 0x6E then (dropWord (str "null") (c :: rest)).map fun r => (.null, r)
      else (scanNumber (c :: rest)).map fun p => (.number p.1, p.2)

/-- The members of an object from a key on, up to and including the closing brace. -/
def parseMembers : Nat → Nat → GoString → Option (List (GoString × JValue) × GoString)
  | 0, _, _ => none
  | fuel + 1, depth, s =>
    match skipSpace s with
    | 0x22 :: rest =>
      match scanString rest with
      | none => none
      | some (rawKey, rest1) =>
        match unquote rawKey with
        | none => none
        | some key =>
          match skipSpace rest1 with
          | 0x3A :: rest2 =>
            match parseValue fuel depth rest2 with
            | none => none
            | some (v, rest3) =>
              match skipSpace rest3 with
              | 0x2C :: rest4 => (parseMembers fuel depth rest4).map fun p => ((key, v) :: p.1, p.2)
              | 0x7D :: rest4 => some ([(key, v)], rest4)
              | _ => none
          | _ => none
    | _ => none

/-- The elements of an array from a value on, up to and including the closing bracket. -/
def parseElements : Nat → Nat → GoString → Option (List JValue × GoString)
  | 0, _, _ => none
  | fuel + 1, depth, s =>
    match parseValue fuel depth s with
    | none => none
    | some (v, rest) =>
      match skipSpace rest with
      | 0x2C :: rest1 => (parseElements fuel depth rest1).map fun p => (v :: p.1, p.2)
      | 0x5D :: rest1 => some ([v], rest1)
      | _ => none

end

/-- The function `checkValid` together with the reading of the value: the JSON value the
data holds, `none` when the data is not exactly one JSON value between optional white
space (a `SyntaxError`). -/
def parseJSON (data : GoString) : Option JValue :=
  match parseValue (2 * data.length + 2) maxNestingDepth data with
  | none => none
  | some (v, rest) => if skipSpace rest = [] then some v else none

/-! ## Initiator details and their JSON form (`main.go` 222-229) -/

/-- The struct `WhatsappInitiatorDetails`, with JSON field names `name` and
`whatsapp_phone_number`. -/
structure WhatsappInitiatorDetails where
  Name : GoString
  WhatsappPhoneNumber : GoString
  deriving DecidableEq, Repr

/-- The function `json.Marshal` on a `WhatsappInitiatorDetails`: an object with the two
fields in declaration order, each value written by `appendString`. It returns no error
for a struct of strings. -/
def jsonMarshal (v : WhatsappInitiatorDetails) : Except GoError GoString :=
  .ok (str "\x7b\"name\":" ++ appendString v.Name ++ str ",\"whatsapp_phone_number\":" ++
    appendString v.WhatsappPhoneNumber ++ str "\x7d")

/-- The function `foldName` of `encoding/json` as far as it can produce ASCII: lower-case
ASCII letters become upper case, and the two non-ASCII runes whose simple case folding is
an ASCII letter, U+017F (long s) and U+212A (Kelvin sign), become `S` and `K`. Other
non-ASCII runes are left as they are, which cannot affect a comparison with the folded
name of a field, all ASCII. -/
def foldName : GoString → GoString
  | [] => []
  | 0xC5 :: 0xBF :: rest => 0x53 :: foldName rest
  | 0xE2 :: 0x84 :: 0xAA :: rest => 0x4B :: foldName rest
  | c :: rest => (if 0x61 ≤ c ∧ c ≤ 0x7A then c - 0x20 else c) :: foldName rest

/-- The fields of `WhatsappInitiatorDetails`. -/
inductive DetailsField where
  | Name
  | WhatsappPhoneNumber
  deriving DecidableEq, Repr

/-- The field an object key stands for: the one with exactly that JSON name, else the one
whose name matches it under case folding. -/
def findField (key : GoString) : Option DetailsField :=
  if key = str "name" then some .Name
  else if key = str "whatsapp_phone_number" then some .WhatsappPhoneNumber
  else if foldName key = foldName (str "name") then some .Name
  else if foldName key = foldName (str "whatsapp_phone_number") then some .WhatsappPhoneNumber
  else none

/-- The method `saveError` of the decoder: the first error is kept. -/
def saveError (saved : Option GoError) (err : GoError) : Option GoError :=
  match saved with
  | some e => some e
  | none => some err

/-- Decoding one member of an object into the struct: a string value is stored in the
field its key stands for, `null` leaves the field as it is, a value of another kind is
an `UnmarshalTypeError`; a member with an unknown key is skipped. -/
def storeMember (acc : WhatsappInitiatorDetails × Option GoError) (member : GoString × JValue) :
    WhatsappInitiatorDetails × Option GoError :=
  match findField member.1 with
  | none => acc
  | some field =>
    match member.2 with
    | .string s =>
      match field with
      | .Name => ({ acc.1 with Name := s }, acc.2)
      | .WhatsappPhoneNumber => ({ acc.1 with WhatsappPhoneNumber := s }, acc.2)
    | .null => acc
    | .bool _ => (acc.1, saveError acc.2 ⟨"json: cannot unmarshal bool into Go struct field of type string"⟩)
    | .number _ => (acc.1, saveError acc.2 ⟨"json: cannot unmarshal number into Go struct field of type string"⟩)
    | .array _ => (acc.1, saveError acc.2 ⟨"json: cannot unmarshal array into Go struct field of type string"⟩)
    | .object _ => (acc.1, saveError acc.2 ⟨"json: cannot unmarshal object into Go struct field of type string"⟩)

/-- The function `json.Unmarshal` into a `WhatsappInitiatorDetails`: the struct after the
call and the error returned. Invalid JSON is a `SyntaxError` and leaves the struct as it
was; `null` changes nothing; a value that is no object is an `UnmarshalTypeError`. -/
def jsonUnmarshal (data : GoString) (v : WhatsappInitiatorDetails) :
    WhatsappInitiatorDetails × Option GoError :=
  match parseJSON data with
  | none => (v, some ⟨"invalid character or unexpected end of JSON input"⟩)
  | some (.object members) => members.foldl storeMember (v, none)
  | some .null => (v, none)
  | some _ => (v, some ⟨"json: cannot unmarshal value into Go value of type main.WhatsappInitiatorDetails"⟩)

/-! ## `fastjson`: reading a parsed value

A `*fastjson.Value` is an `Option JValue`, `none` being the nil pointer, on which every
accessor below is defined. `GetStringBytes` yields nil for a missing or non-string value;
nil and the empty slice are the same list here, as they are for `bytes.Equal` and for the
conversion to `string`, the only uses the program makes of the result. -/

/-- The decimal digits of the input read as a number, from the given accumulator on. -/
def parseDigits : GoString → Nat → Option Nat
  | [], acc => some acc
  | c :: rest, acc => if isDigit c then parseDigits rest (acc * 10 + (c - 0x30)) else none

/-- The function `strconv.Atoi`: an optional sign and decimal digits, within 64 bits. -/
def Atoi (s : GoString) : Option Int :=
  let signed : Bool × GoString :=
    match s with
    | 0x2D :: rest => (true, rest)
    | 0x2B :: rest => (false, rest)
    | _ => (false, s)
  match signed.2 with
  | [] => none
  | digits =>
    match parseDigits digits 0 with
    | none => none
    | some n =>
      let v : Int := if signed.1 then -(n : Int) else (n : Int)
      if -(2 : Int) ^ 63 ≤ v ∧ v < (2 : Int) ^ 63 then some v else none

/-- The method `Value.Get`: the value at a path of object keys and array indexes, nil when
the path does not exist. An object yields its first member with the key. -/
def Get : Option JValue → List GoString → Option JValue
  | none, _ => none
  | some v, [] => some v
  | some v, key :: keys =>
    match v with
    | .object members => Get ((members.find? (fun kv => kv.1 == key)).map (·.2)) keys
    | .array a =>
      match Atoi key with
      | none => none
      | some n => if n < 0 ∨ (a.length : Int) ≤ n then none else Get (a.get? n.toNat) keys
    | _ => none

/-- The method `Value.GetStringBytes`: the string at the path, nil when there is none. -/
def GetStringBytes (v : Option JValue) (keys : List GoString) : GoString :=
  match Get v keys with
  | some (.string s) => s
  | _ => []

/-- The method `Value.GetArray`: the array at the path, nil when there is none. -/
def GetArray (v : Option JValue) (keys : List GoString) : List JValue :=
  match Get v keys with
  | some (.array a) => a
  | _ => []

/-- The method `Value.Exists`: whether the path leads to a value, `null` included. -/
def Exists (v : Option JValue) (keys : List GoString) : Bool :=
  (Get v keys).isSome

/-! ## Requests and the collaborators of the handlers -/

/-- An inbound request as `getBody` sees it: the error of reading the body, if any, and
the first JSON value `fastjson.Scanner` finds in the body (nil when it finds none). -/
structure Request where
  readErr : Option GoError
  value : Option JValue

/-- The function `getBody`. -/
def getBody (r : Request) : Except GoError (Option JValue) :=
  match r.readErr with
  | some err => .error err
  | none => .ok r.value

/-- The function `handleInternalError`, without its logging. -/
def handleInternalError (w : ResponseWriter) (_err : GoError) (_contextMessage : String) :
    ResponseWriter :=
  w.WriteHeader StatusInternalServerError

/-- The function `handleBadRequest`, without its logging. -/
def handleBadRequest (w : ResponseWriter) (_err : GoError) (_contextMessage : String) :
    ResponseWriter :=
  w.WriteHeader StatusBadRequest

/-- The fields of a `slack.Channel` the program reads: its id, its name and the value of
its purpose. The zero value has all three empty. -/
structure Channel where
  ID : GoString
  Name : GoString
  Purpose : GoString
  deriving DecidableEq, Repr

/-- The interface `FbClient`, over a world state `σ`. -/
structure FbClient (σ : Type) where
  sendWhatsappMessage : GoString → GoString → GoString → GoString → σ → Except GoError Unit × σ
  markWhatsappMessageAsRead : GoString → GoString → σ → Except GoError Unit × σ

/-- The methods of the interface `SlackClient` the handlers call, over a world state `σ`. -/
structure SlackClient (σ : Type) where
  getSlackChannel : LinkedAccount → WhatsappInitiatorDetails → σ → Except GoError Channel × σ
  postMessageAsUser : GoString → GoString → GoString → σ → Except GoError Unit × σ
  GetConversationInfo : GoString → σ → Except GoError Channel × σ

/-- The interface `LinkedAccountStore`, over a world state `σ`. -/
structure LinkedAccountStore (σ : Type) where
  lookupLinkedAccount : GoString → σ → Except GoError LinkedAccount × σ

/-- A call a handler makes on one of its three collaborators, with its arguments. -/
inductive Call where
  | lookupLinkedAccount (id : GoString)
  | getSlackChannel (linkedAccount : LinkedAccount) (initiatorDetails : WhatsappInitiatorDetails)
  | postMessageAsUser (channelId message asUserName : GoString)
  | GetConversationInfo (channelId : GoString)
  | sendWhatsappMessage (businessPhoneNumberId recipient message replyToMessage : GoString)
  | markWhatsappMessageAsRead (businessPhoneNumberId messageId : GoString)
  deriving DecidableEq, Repr

/-- What a handler leaves behind: the response writer, the calls it made in order, and the
world state after them. -/
structure Outcome (σ : Type) where
  w : ResponseWriter
  calls : List Call
  world : σ

/-! ## WhatsApp to Slack (`main.go` 305-350, 408-421) -/

/-- The loop of `getInitiatorDetails` over the contacts. -/
def getInitiatorDetailsLoop (newMessage : Option JValue) :
    List JValue → Except GoError WhatsappInitiatorDetails
  | [] => .error ⟨"could not find associated contact for the initiated whatsapp message. something changed in the whatsapp callback message"⟩
  | contact :: rest =>
    if GetStringBytes (some contact) [str "wa_id"] == GetStringBytes newMessage [str "from"] then
      .ok { Name := GetStringBytes (some contact) [str "profile", str "name"],
            WhatsappPhoneNumber := GetStringBytes (some contact) [str "wa_id"] }
    else getInitiatorDetailsLoop newMessage rest

/-- The function `getInitiatorDetails`. -/
def getInitiatorDetails (bodyValue newMessage : Option JValue) :
    Except GoError WhatsappInitiatorDetails :=
  getInitiatorDetailsLoop newMessage
    (GetArray bodyValue [str "entry", str "0", str "changes", str "0", str "value", str "contacts"])

/-- The handler returned by `handleWhatsappInitiatedMessage`. -/
def handleWhatsappInitiatedMessage {σ : Type} (fbClient : FbClient σ) (slackClient : SlackClient σ)
    (store : LinkedAccountStore σ) (w : ResponseWriter) (r : Request) (s : σ) : Outcome σ :=
  match getBody r with
  | .error err => ⟨handleBadRequest w err "Error reading body for whatsapp initiated message", [], s⟩
  | .ok bodyValue =>
    let newMessage := Get bodyValue
      [str "entry", str "0", str "changes", str "0", str "value", str "messages", str "0"]
    if GetStringBytes newMessage [str "type"] == str "text" then
      let businessPhoneNumberId := GetStringBytes bodyValue
        [str "entry", str "0", str "changes", str "0", str "value", str "metadata", str "phone_number_id"]
      let c1 := [Call.lookupLinkedAccount businessPhoneNumberId]
      match store.lookupLinkedAccount businessPhoneNumberId s with
      | (.error err, s1) =>
        ⟨handleInternalError w err "Error looking up linked account for whatsapp initiated message", c1, s1⟩
      | (.ok linkedAccount, s1) =>
        match getInitiatorDetails bodyValue newMessage with
        | .error err => ⟨handleBadRequest w err "Error getting whatsapp initiator details", c1, s1⟩
        | .ok initiatorDetails =>
          let c2 := c1 ++ [Call.getSlackChannel linkedAccount initiatorDetails]
          match slackClient.getSlackChannel linkedAccount initiatorDetails s1 with
          | (.error err, s2) => ⟨handleInternalError w err "Error getting slack channel", c2, s2⟩
          | (.ok channel, s2) =>
            let message := GetStringBytes newMessage [str "text", str "body"]
            let c3 := c2 ++ [Call.postMessageAsUser channel.ID message initiatorDetails.Name]
            match slackClient.postMessageAsUser channel.ID message initiatorDetails.Name s2 with
            | (.error err, s3) =>
              ⟨handleInternalError w err "Error forwarding whatsapp message to slack", c3, s3⟩
            | (.ok _, s3) =>
              let messageId := GetStringBytes newMessage [str "id"]
              let c4 := c3 ++ [Call.markWhatsappMessageAsRead businessPhoneNumberId messageId]
              match fbClient.markWhatsappMessageAsRead businessPhoneNumberId messageId s3 with
              | (.error err, s4) =>
                ⟨handleInternalError w err "Error marking message as read in whatsapp", c4, s4⟩
              | (.ok _, s4) => ⟨w.WriteHeader StatusOK, c4, s4⟩
    else ⟨w, [], s⟩

/-! ## Slack to WhatsApp (`main.go` 352-406) -/

/-- The function `isRegularMessageEvent`. -/
def isRegularMessageEvent (bodyValue : Option JValue) : Bool :=
  GetStringBytes bodyValue [str "type"] == str "event_callback" &&
    GetStringBytes bodyValue [str "event", str "type"] == str "message" &&
    !Exists bodyValue [str "event", str "subtype"]

/-- The function `isWebhookUrlVerificationRequest`. -/
def isWebhookUrlVerificationRequest (bodyValue : Option JValue) : Bool :=
  GetStringBytes bodyValue [str "type"] == str "url_verification"

/-- The function `resolveSlackVerificationChallenge`. -/
def resolveSlackVerificationChallenge (w : ResponseWriter) (bodyValue : Option JValue) :
    ResponseWriter :=
  let w1 := w.WriteHeader StatusOK
  match w1.Write (GetStringBytes bodyValue [str "challenge"]) with
  | (.error _, w2) => w2.WriteHeader StatusInternalServerError
  | (.ok _, w2) => w2

/-- The handler returned by `handleSlackInitiatedMessage`. -/
def handleSlackInitiatedMessage {σ : Type} (fbClient : FbClient σ) (slackApi : SlackClient σ)
    (store : LinkedAccountStore σ) (w : ResponseWriter) (r : Request) (s : σ) : Outcome σ :=
  match getBody r with
  | .error err => ⟨handleBadRequest w err "Error reading body for slack initiated message", [], s⟩
  | .ok bodyValue =>
    if isWebhookUrlVerificationRequest bodyValue then
      ⟨resolveSlackVerificationChallenge w bodyValue, [], s⟩
    else if isRegularMessageEvent bodyValue then
      let channelId := GetStringBytes bodyValue [str "event", str "channel"]
      let c1 := [Call.GetConversationInfo channelId]
      match slackApi.GetConversationInfo channelId s with
      | (.error err, s1) => ⟨handleInternalError w err "Error getting slack channel", c1, s1⟩
      | (.ok channel, s1) =>
        match jsonUnmarshal channel.Purpose { Name := [], WhatsappPhoneNumber := [] } with
        | (_, some err) =>
          ⟨handleInternalError w err "Error getting whatsapp details from channel purpose(description)", c1, s1⟩
        | (whatsappDetails, none) =>
          let user := GetStringBytes bodyValue [str "event", str "user"]
          let c2 := c1 ++ [Call.lookupLinkedAccount user]
          match store.lookupLinkedAccount user s1 with
          | (.error err, s2) =>
            ⟨handleInternalError w err "Error looking up linked account for slack initiated message", c2, s2⟩
          | (.ok linkedAccount, s2) =>
            let text := GetStringBytes bodyValue [str "event", str "text"]
            let c3 := c2 ++ [Call.sendWhatsappMessage linkedAccount.WhatsappBusinessPhoneNumberId
              whatsappDetails.WhatsappPhoneNumber text []]
            match fbClient.sendWhatsappMessage linkedAccount.WhatsappBusinessPhoneNumberId
                whatsappDetails.WhatsappPhoneNumber text [] s2 with
            | (.error err, s3) =>
              ⟨handleInternalError w err "Error forwarding slack message to whatsapp", c3, s3⟩
            | (.ok _, s3) => ⟨w.WriteHeader StatusOK, c3, s3⟩
    else ⟨w, [], s⟩

/-! ## The test scenario (`main_test.go`) -/

/-- The webhook payload of `TestHandleWhatsappInitiatedMessage`, as parsed, with the type
of its message as a parameter (`text` in the test). -/
def testPayload (messageType : GoString) : JValue :=
  .object [
    (str "object", .string (str "whatsapp_business_account")),
    (str "entry", .array [
      .object [
        (str "id", .string (str "36825")),
        (str "changes", .array [
          .object [
            (str "value", .object [
              (str "messaging_product", .string (str "whatsapp")),
              (str "metadata", .object [
                (str "display_phone_number", .string (str "40742321321")),
                (str "phone_number_id", .string (str "36825"))]),
              (str "contacts", .array [
                .object [
                  (str "profile", .object [(str "name", .string (str "Bob"))]),
                  (str "wa_id", .string (str "40742123123"))]]),
              (str "messages", .array [
                .object [
                  (str "id", .string (str "message_id_123")),
                  (str "from", .string (str "40742123123")),
                  (str "text", .object [(str "body", .string (str "message from whatsapp"))]),
                  (str "type", .string messageType)]])]),
            (str "field", .string (str "messages"))]])]])]

/-- The mock `FbClient` of the test: every call succeeds. -/
def mockFbClient : FbClient Unit where
  sendWhatsappMessage := fun _ _ _ _ s => (.ok (), s)
  markWhatsappMessageAsRead := fun _ _ s => (.ok (), s)

/-- The mock `SlackClient` of the test: every call succeeds, channels being the zero
`slack.Channel` but for the given purpose. -/
def mockSlackClient (purpose : GoString) : SlackClient Unit where
  getSlackChannel := fun _ _ s => (.ok { ID := [], Name := [], Purpose := purpose }, s)
  postMessageAsUser := fun _ _ _ s => (.ok (), s)
  GetConversationInfo := fun _ s => (.ok { ID := [], Name := [], Purpose := purpose }, s)

/-- The mock `LinkedAccountStore` of the test: every lookup returns the account
`{36825, slack_123}`. -/
def mockLinkedAccountStore : LinkedAccountStore Unit where
  lookupLinkedAccount := fun _ s =>
    (.ok { WhatsappBusinessPhoneNumberId := str "36825", SlackUserId := str "slack_123" }, s)

/-- A Slack `event_callback` payload with a `message` event in channel `C1` by user
`slack_123`. -/
def slackMessagePayload : JValue :=
  .object [
    (str "type", .string (str "event_callback")),
    (str "event", .object [
      (str "type", .string (str "message")),
      (str "channel", .string (str "C1")),
      (str "user", .string (str "slack_123")),
      (str "text", .string (str "hello"))])]

/-! ## The Slack client (`main.go` 97-152, 227-229) -/

/-- The struct `slack.GetConversationsForUserParameters`, as far as the program fills it. -/
structure GetConversationsForUserParameters where
  UserID : GoString
  ExcludeArchived : Bool
  Cursor : GoString
  deriving DecidableEq, Repr

/-- The methods of `slack.Client` that channel resolution calls, over a state `σ` of the
Slack workspace. The listing is a query: it returns a page of channels and the cursor of
the next page (empty after the last page) and leaves the workspace as it is. -/
structure SlackAPI (σ : Type) where
  CreateConversation : GoString → σ → Except GoError Channel × σ
  InviteUsersToConversation : GoString → GoString → σ → Except GoError Channel × σ
  SetPurposeOfConversation : GoString → GoString → σ → Except GoError Channel × σ
  GetConversationsForUser :
    GetConversationsForUserParameters → σ → Except GoError (List Channel × GoString)

/-- The struct `SlackClientS`: the embedded `slack.Client`, and the function
`strings.ToLower` of the Go library, taken as a parameter. -/
structure SlackClientS (σ : Type) where
  Client : SlackAPI σ
  ToLower : GoString → GoString

/-- The function `strings.Contains`. -/
def stringsContains (s substr : GoString) : Bool :=
  decide (substr <:+: s)

/-- The method `getDefaultSlackChannelName`. -/
def getDefaultSlackChannelName (ToLower : GoString → GoString) (t : WhatsappInitiatorDetails) :
    GoString :=
  ToLower t.Name ++ str "-" ++ ToLower t.WhatsappPhoneNumber

/-- The zero value of `slack.Channel`. -/
def Channel.zero : Channel :=
  { ID := [], Name := [], Purpose := [] }

/-- The three results of `getExistingChannel`, and the cursors of the page requests it
made, in order. -/
structure ExistingChannel where
  channel : Channel
  err : Option GoError
  found : Bool
  requested : List GoString
  deriving DecidableEq, Repr

/-- The loop of `getExistingChannel`, entered with the cursor of the page to request; the
first argument bounds the number of iterations, `none` meaning it was reached. -/
def getExistingChannelLoop {σ : Type} (t : SlackClientS σ) (s : σ)
    (slackUserId whatsAppPhoneNumber : GoString) : Nat → GoString → Option ExistingChannel
  | 0, _ => none
  | fuel + 1, nextCursor =>
    match t.Client.GetConversationsForUser
        { UserID := slackUserId, ExcludeArchived := true, Cursor := nextCursor } s with
    | .error err => some ⟨Channel.zero, some err, false, [nextCursor]⟩
    | .ok (existingChannels, cursor) =>
      match existingChannels.find? (fun existingChannel =>
          stringsContains existingChannel.Purpose whatsAppPhoneNumber) with
      | some existingChannel => some ⟨existingChannel, none, true, [nextCursor]⟩
      | none =>
        if cursor != [] then
          (getExistingChannelLoop t s slackUserId whatsAppPhoneNumber fuel cursor).map
            fun r => { r with requested := nextCursor :: r.requested }
        else some ⟨Channel.zero, none, false, [nextCursor]⟩

/-- The method `SlackClientS.getExistingChannel`. -/
def SlackClientS.getExistingChannel {σ : Type} (t : SlackClientS σ) (s : σ)
    (slackUserId whatsAppPhoneNumber : GoString) (fuel : Nat) : Option ExistingChannel :=
  getExistingChannelLoop t s slackUserId whatsAppPhoneNumber fuel []

/-- The method `SlackClientS.initializeNewChannel`. -/
def SlackClientS.initializeNewChannel {σ : Type} (t : SlackClientS σ) (s : σ)
    (initiatorDetails : WhatsappInitiatorDetails) (linkedAccount : LinkedAccount) :
    Except GoError Channel × σ :=
  match t.Client.CreateConversation (getDefaultSlackChannelName t.ToLower initiatorDetails) s with
  | (.error err, s1) => (.error ⟨"error creating channel. Cause: " ++ err.message⟩, s1)
  | (.ok createdChannel, s1) =>
    match t.Client.InviteUsersToConversation createdChannel.ID linkedAccount.SlackUserId s1 with
    | (.error err, s2) => (.error ⟨"error inviting user to channel. Cause: " ++ err.message⟩, s2)
    | (.ok _, s2) =>
      match jsonMarshal initiatorDetails with
      | .error err =>
        (.error ⟨"error marshalling initiator details. Cause: " ++ err.message⟩, s2)
      | .ok data =>
        match t.Client.SetPurposeOfConversation createdChannel.ID data s2 with
        | (.error err, s3) =>
          (.error ⟨"error setting channel purpose/description. Cause: " ++ err.message⟩, s3)
        | (.ok updatedChannel, s3) => (.ok updatedChannel, s3)

/-- The method `SlackClientS.getSlackChannel`; `none` when the page loop runs out of the
iterations allowed. -/
def SlackClientS.getSlackChannel {σ : Type} (t : SlackClientS σ) (s : σ)
    (linkedAccount : LinkedAccount) (initiatorDetails : WhatsappInitiatorDetails) (fuel : Nat) :
    Option (Except GoError Channel × σ) :=
  match t.getExistingChannel s linkedAccount.SlackUserId initiatorDetails.WhatsappPhoneNumber
      fuel with
  | none => none
  | some r =>
    match r.err with
    | some err => some (.error ⟨"error getting existing channel. Cause: " ++ err.message⟩, s)
    | none =>
      if !r.found then
        match t.initializeNewChannel s initiatorDetails linkedAccount with
        | (.error err, s1) => some (.error err, s1)
        | (.ok newChannel, s1) => some (.ok newChannel, s1)
      else some (.ok r.channel, s)

/-- A finite cursor-linked sequence of pages: requesting the given cursor returns the
first page, each page but the last comes with a non-empty cursor whose request returns
the next page, and the last page comes with the empty cursor. A page is its channels and
the cursor returned with them. -/
def PageChain (fetch : GoString → Except GoError (List Channel × GoString)) :
    GoString → List (List Channel × GoString) → Prop
  | _, [] => False
  | cursor, [page] => fetch cursor = .ok page ∧ page.2 = []
  | cursor, page :: next :: rest =>
    fetch cursor = .ok page ∧ page.2 ≠ [] ∧ PageChain fetch page.2 (next :: rest)

/-! ## An explicit model of the Slack workspace

The state the four `slack.Client` methods act on: `CreateConversation` adds a fresh
channel, `InviteUsersToConversation` makes the user a member, `SetPurposeOfConversation`
stores the given string as the purpose of the channel, and `GetConversationsForUser`
lists the channels of a user page by page. A cursor is an opaque string; here it is as
long as the number of channels already listed. -/

/-- A channel of the workspace: what `slack.Channel` shows of it, its members, and whether
it is archived. -/
structure WorkspaceChannel where
  channel : Channel
  members : List GoString
  archived : Bool
  deriving DecidableEq, Repr

/-- The workspace: its channels in order of creation, and the size of a page of the
listing, `perPage + 1` channels. -/
structure Workspace where
  channels : List WorkspaceChannel
  perPage : Nat
  deriving DecidableEq, Repr

/-- An id no channel of the workspace has: longer than each of theirs. -/
def Workspace.freshID (s : Workspace) : GoString :=
  List.replicate ((s.channels.map (fun c => c.channel.ID.length)).foldr max 0 + 1) 0x43

/-- `CreateConversation` adds a channel with a fresh id, the given name, no purpose and no
member. -/
def Workspace.CreateConversation (channelName : GoString) (s : Workspace) :
    Except GoError Channel × Workspace :=
  let created : Channel := { ID := s.freshID, Name := channelName, Purpose := [] }
  (.ok created, { s with channels := s.channels ++ [⟨created, [], false⟩] })

/-- `InviteUsersToConversation` makes the user a member of the channel with the id. -/
def Workspace.InviteUsersToConversation (channelID user : GoString) (s : Workspace) :
    Except GoError Channel × Workspace :=
  match s.channels.find? (fun c => c.channel.ID == channelID) with
  | none => (.error ⟨"channel_not_found"⟩, s)
  | some c =>
    (.ok c.channel, { s with channels := s.channels.map fun c =>
      if c.channel.ID == channelID then { c with members := c.members ++ [user] } else c })

/-- `SetPurposeOfConversation` stores the string as the purpose of the channel with the id
and returns the channel as updated. -/
def Workspace.SetPurposeOfConversation (channelID purpose : GoString) (s : Workspace) :
    Except GoError Channel × Workspace :=
  match s.channels.find? (fun c => c.channel.ID == channelID) with
  | none => (.error ⟨"channel_not_found"⟩, s)
  | some c =>
    (.ok { c.channel with Purpose := purpose }, { s with channels := s.channels.map fun c =>
      if c.channel.ID == channelID then { c with channel := { c.channel with Purpose := purpose } }
      else c })

/-- The channels the listing goes through for a user: those the user is a member of,
without the archived ones when they are excluded, in order of creation. -/
def Workspace.conversationsForUser (s : Workspace) (user : GoString) (excludeArchived : Bool) :
    List Channel :=
  (s.channels.filter fun c => c.members.contains user && !(excludeArchived && c.archived)).map
    (fun c => c.channel)

/-- `GetConversationsForUser` returns the page of the listing that starts after the
channels the cursor stands for, and the cursor of the next page, empty when there is
none. -/
def Workspace.GetConversationsForUser (params : GetConversationsForUserParameters)
    (s : Workspace) : Except GoError (List Channel × GoString) :=
  let listing := s.conversationsForUser params.UserID params.ExcludeArchived
  let offset := params.Cursor.length
  .ok ((listing.drop offset).take (s.perPage + 1),
    if offset + (s.perPage + 1) < listing.length then
      List.replicate (offset + (s.perPage + 1)) 0x63
    else [])

/-- The Slack client over the model of the workspace. -/
def workspaceClient (ToLower : GoString → GoString) : SlackClientS Workspace where
  Client :=
    { CreateConversation := Workspace.CreateConversation
      InviteUsersToConversation := Workspace.InviteUsersToConversation
      SetPurposeOfConversation := Workspace.SetPurposeOfConversation
      GetConversationsForUser := Workspace.GetConversationsForUser }
  ToLower := ToLower

/-- A workspace whose listing has two pages of one channel each for the user `slack_123`:
the channel of another contact, then the channel of the contact `40742123123`. -/
def twoPageWorkspace : Workspace :=
  { channels := [
      ⟨{ ID := str "C1", Name := str "ann-40700000000",
         Purpose := str "\x7b\"name\":\"Ann\",\"whatsapp_phone_number\":\"40700000000\"\x7d" },
        [str "slack_123"], false⟩,
      ⟨{ ID := str "C2", Name := str "bob-40742123123",
         Purpose := str "\x7b\"name\":\"Bob\",\"whatsapp_phone_number\":\"40742123123\"\x7d" },
        [str "slack_123"], false⟩],
    perPage := 0 }

/-! ## Auxiliary definitions for the proofs about the metadata -/

/-- A Unicode scalar value: a code point that is no surrogate. -/
def IsScalar (n : Nat) : Prop :=
  n < 0xD800 ∨ (0xDFFF < n ∧ n < 0x110000)

/-- What `appendString` writes for one rune of a well-formed string. -/
def escapeRune (n : Nat) : GoString :=
  if n < 0x80 then (if htmlSafe n then [n] else escapeByte n)
  else if n = 0x2028 ∨ n = 0x2029 then str "\\u202" ++ [hex (n % 16)]
  else encodeRune n

/-- The UTF-8 bytes of a sequence of runes. -/
def encodeRunes (rs : List Nat) : GoString :=
  rs.flatMap encodeRune

/-- What `appendString` writes between the quotes for a sequence of runes. -/
def escapeRunes (rs : List Nat) : GoString :=
  rs.flatMap escapeRune

/-! ## The route of the WhatsApp verification handshake (`main.go` 274) -/

/-- The matchers of the route `main` registers for the handshake,
`.Queries().Methods("GET")`: `Queries` is called with no pair and so adds no matcher, and
the route is taken by every request to the path whose method is `GET`, whatever its query
string. -/
def whatsappVerificationRouteMatches (method : GoString) (_query : Values) : Bool :=
  method == str "GET"

/-! ## Theorems -/

/-- An entry matches an id when either of its two fields equals it. -/
theorem lookupLoop_ok_iff (id : GoString) (dir : List LinkedAccount) (la : LinkedAccount) :
    lookupLoop id dir = .ok la ↔
      ∃ pre post, dir = pre ++ la :: post ∧
        (∀ x ∈ pre, x.WhatsappBusinessPhoneNumberId ≠ id ∧ x.SlackUserId ≠ id) ∧
        (la.WhatsappBusinessPhoneNumberId = id ∨ la.SlackUserId = id) := by
  induction dir with
  | nil => simp [lookupLoop]
  | cons a rest ih =>
    unfold lookupLoop
    by_cases h : (a.WhatsappBusinessPhoneNumberId == id || a.SlackUserId == id) = true
    · rw [if_pos h]
      have h' : a.WhatsappBusinessPhoneNumberId = id ∨ a.SlackUserId = id := by
        simpa using h
      constructor
      · intro e
        cases e
        exact ⟨[], rest, rfl, by simp, h'⟩
      · rintro ⟨pre, post, hd, hpre, _⟩
        cases pre with
        | nil =>
          simp at hd
          rw [hd.1]
        | cons p pre =>
          simp at hd
          have := hpre p (by simp)
          rw [← hd.1] at this
          rcases h' with h' | h'
          · exact absurd h' this.1
          · exact absurd h' this.2
    · rw [if_neg h, ih]
      have h' : a.WhatsappBusinessPhoneNumberId ≠ id ∧ a.SlackUserId ≠ id := by
        simpa using h
      constructor
      · rintro ⟨pre, post, hd, hpre, hm⟩
        refine ⟨a :: pre, post, by simp [hd], ?_, hm⟩
        intro x hx
        rcases List.mem_cons.1 hx with rfl | hx
        · exact h'
        · exact hpre x hx
      · rintro ⟨pre, post, hd, hpre, hm⟩
        cases pre with
        | nil =>
          simp at hd
          rw [← hd.1] at hm
          rcases hm with hm | hm
          · exact absurd hm h'.1
          · exact absurd hm h'.2
        | cons p pre =>
          simp at hd
          exact ⟨pre, post, hd.2, fun x hx => hpre x (by simp [hx]), hm⟩

theorem lookupLoop_error_iff (id : GoString) (dir : List LinkedAccount) :
    (∃ e, lookupLoop id dir = .error e) ↔
      ∀ x ∈ dir, x.WhatsappBusinessPhoneNumberId ≠ id ∧ x.SlackUserId ≠ id := by
  induction dir with
  | nil => simp [lookupLoop]
  | cons a rest ih =>
    unfold lookupLoop
    by_cases h : (a.WhatsappBusinessPhoneNumberId == id || a.SlackUserId == id) = true
    · rw [if_pos h]
      have h' : a.WhatsappBusinessPhoneNumberId = id ∨ a.SlackUserId = id := by
        simpa using h
      simp only [List.mem_cons, forall_eq_or_imp]
      constructor
      · rintro ⟨e, he⟩
        cases he
      · rintro ⟨ha, _⟩
        rcases h' with h' | h'
        · exact absurd h' ha.1
        · exact absurd h' ha.2
    · rw [if_neg h, ih]
      have h' : a.WhatsappBusinessPhoneNumberId ≠ id ∧ a.SlackUserId ≠ id := by
        simpa using h
      simp only [List.mem_cons, forall_eq_or_imp]
      exact ⟨fun hr => ⟨h', hr⟩, fun hr => hr.2⟩

/-- C3: the lookup fails exactly when no entry has either field equal to the id (exact
equality of the byte strings), and it succeeds with an entry exactly when that entry is
the first one in directory order with a field equal to the id. -/
theorem lookupLinkedAccount_first_match (t : LinkedAccountFileStore) (id : GoString) :
    ((∃ e, t.lookupLinkedAccount id = .error e) ↔
      ∀ x ∈ t.linkedAccounts, x.WhatsappBusinessPhoneNumberId ≠ id ∧ x.SlackUserId ≠ id) ∧
    (∀ la, t.lookupLinkedAccount id = .ok la ↔
      ∃ pre post, t.linkedAccounts = pre ++ la :: post ∧
        (∀ x ∈ pre, x.WhatsappBusinessPhoneNumberId ≠ id ∧ x.SlackUserId ≠ id) ∧
        (la.WhatsappBusinessPhoneNumberId = id ∨ la.SlackUserId = id)) :=
  ⟨lookupLoop_error_iff id t.linkedAccounts, fun la => lookupLoop_ok_iff id t.linkedAccounts la⟩

/-- C2, as stated, fails: the directory `[{y, z}, {x, y}]` contains the entry `{x, y}`, but
looking up `x` returns `{x, y}` and looking up `y` returns the earlier entry `{y, z}`. -/
theorem lookupLinkedAccount_pair_counterexample :
    (⟨str "x", str "y"⟩ : LinkedAccount) ∈
        (⟨[⟨str "y", str "z"⟩, ⟨str "x", str "y"⟩]⟩ : LinkedAccountFileStore).linkedAccounts ∧
      (⟨[⟨str "y", str "z"⟩, ⟨str "x", str "y"⟩]⟩ : LinkedAccountFileStore).lookupLinkedAccount
          (str "x") = .ok ⟨str "x", str "y"⟩ ∧
      (⟨[⟨str "y", str "z"⟩, ⟨str "x", str "y"⟩]⟩ : LinkedAccountFileStore).lookupLinkedAccount
          (str "y") = .ok ⟨str "y", str "z"⟩ ∧
      (⟨str "x", str "y"⟩ : LinkedAccount) ≠ ⟨str "y", str "z"⟩ := by
  decide

/-- C2, amended: both lookups of an entry of the directory succeed, and when no entry
before it in directory order has a field equal to one of its two ids, both return that
entry. -/
theorem lookupLinkedAccount_pair (t : LinkedAccountFileStore) (e : LinkedAccount)
    (pre post : List LinkedAccount) (hd : t.linkedAccounts = pre ++ e :: post) :
    ((∃ a, t.lookupLinkedAccount e.WhatsappBusinessPhoneNumberId = .ok a) ∧
      (∃ b, t.lookupLinkedAccount e.SlackUserId = .ok b)) ∧
    ((∀ x ∈ pre,
        x.WhatsappBusinessPhoneNumberId ≠ e.WhatsappBusinessPhoneNumberId ∧
        x.SlackUserId ≠ e.WhatsappBusinessPhoneNumberId ∧
        x.WhatsappBusinessPhoneNumberId ≠ e.SlackUserId ∧
        x.SlackUserId ≠ e.SlackUserId) →
      t.lookupLinkedAccount e.WhatsappBusinessPhoneNumberId = .ok e ∧
      t.lookupLinkedAccount e.SlackUserId = .ok e) := by
  have hmem : e ∈ t.linkedAccounts := by rw [hd]; simp
  have succ : ∀ id, (e.WhatsappBusinessPhoneNumberId = id ∨ e.SlackUserId = id) →
      ∃ a, t.lookupLinkedAccount id = .ok a := by
    intro id hid
    cases hr : t.lookupLinkedAccount id with
    | ok a => exact ⟨a, rfl⟩
    | error err =>
      have hno := (lookupLoop_error_iff id t.linkedAccounts).1 ⟨err, hr⟩ e hmem
      rcases hid with h | h
      · exact absurd h hno.1
      · exact absurd h hno.2
  refine ⟨⟨succ _ (Or.inl rfl), succ _ (Or.inr rfl)⟩, ?_⟩
  intro hpre
  constructor
  · exact (lookupLoop_ok_iff _ _ _).2
      ⟨pre, post, hd, fun x hx => ⟨(hpre x hx).1, (hpre x hx).2.1⟩, Or.inl rfl⟩
  · exact (lookupLoop_ok_iff _ _ _).2
      ⟨pre, post, hd, fun x hx => ⟨(hpre x hx).2.2.1, (hpre x hx).2.2.2⟩, Or.inr rfl⟩

/-- The amended C2 at the directory of the test scenario with a second account after it. -/
theorem lookupLinkedAccount_pair_witness :
    (⟨[⟨str "36825", str "slack_123"⟩, ⟨str "777", str "slack_9"⟩]⟩ :
        LinkedAccountFileStore).lookupLinkedAccount (str "777") = .ok ⟨str "777", str "slack_9"⟩ ∧
    (⟨[⟨str "36825", str "slack_123"⟩, ⟨str "777", str "slack_9"⟩]⟩ :
        LinkedAccountFileStore).lookupLinkedAccount (str "slack_9") =
      .ok ⟨str "777", str "slack_9"⟩ :=
  (lookupLinkedAccount_pair ⟨[⟨str "36825", str "slack_123"⟩, ⟨str "777", str "slack_9"⟩]⟩
    ⟨str "777", str "slack_9"⟩ [⟨str "36825", str "slack_123"⟩] [] rfl).2 (by decide)

/-- C7: when all three parameters are present, the handler answers 200 with the first
`hub.challenge` value as the body if the first `hub.mode` value is `subscribe` and the
first `hub.verify_token` value equals the expected token, and 403 with an empty body
otherwise. The body is the challenge whenever the connection takes the write; the status
is 200 in either case. -/
theorem resolveWhatsappVerificationChallenge_spec (expected : GoString) (query : Values)
    (writeErr : Option GoError) (mode token challenge : GoString)
    (hmode : first (query (str "hub.mode")) = some mode)
    (htoken : first (query (str "hub.verify_token")) = some token)
    (hchallenge : first (query (str "hub.challenge")) = some challenge) :
    ∃ w, resolveWhatsappVerificationChallenge expected (ResponseWriter.fresh writeErr) query
        = some w ∧
      ((mode = str "subscribe" ∧ token = expected) →
        w.code = 200 ∧ (writeErr = none → w.body = challenge)) ∧
      (¬ (mode = str "subscribe" ∧ token = expected) → w.code = 403 ∧ w.body = []) := by
  unfold resolveWhatsappVerificationChallenge
  rw [hmode, htoken, hchallenge]
  by_cases h : mode = str "subscribe" ∧ token = expected
  · have hb : (mode == str "subscribe" && token == expected) = true := by
      simp [h.1, h.2]
    simp only [hb, if_true]
    cases writeErr with
    | none =>
      refine ⟨_, rfl, ?_, fun hn => absurd h hn⟩
      intro _
      simp [ResponseWriter.fresh, ResponseWriter.WriteHeader, ResponseWriter.Write,
        ResponseWriter.code]
    | some e =>
      refine ⟨_, rfl, ?_, fun hn => absurd h hn⟩
      intro _
      simp [ResponseWriter.fresh, ResponseWriter.WriteHeader, ResponseWriter.Write,
        ResponseWriter.code]
  · have hb : (mode == str "subscribe" && token == expected) = false := by
      rw [Bool.eq_false_iff]
      intro hc
      apply h
      simpa using hc
    simp only [hb]
    refine ⟨_, rfl, fun hp => absurd hp h, fun _ => ?_⟩
    simp [ResponseWriter.fresh, ResponseWriter.WriteHeader, ResponseWriter.code,
      StatusForbidden]

theorem getInitiatorDetailsLoop_first (newMessage : Option JValue) (pre post : List JValue)
    (contact : JValue)
    (hpre : ∀ c ∈ pre,
      GetStringBytes (some c) [str "wa_id"] ≠ GetStringBytes newMessage [str "from"])
    (hfrom : GetStringBytes (some contact) [str "wa_id"] = GetStringBytes newMessage [str "from"]) :
    getInitiatorDetailsLoop newMessage (pre ++ contact :: post) =
      .ok { Name := GetStringBytes (some contact) [str "profile", str "name"],
            WhatsappPhoneNumber := GetStringBytes (some contact) [str "wa_id"] } := by
  induction pre with
  | nil => simp [getInitiatorDetailsLoop, hfrom]
  | cons p pre ih =>
    have hp := hpre p (by simp)
    have hrest := ih (fun c hc => hpre c (by simp [hc]))
    simp only [List.cons_append, getInitiatorDetailsLoop]
    rw [if_neg (by simpa using hp)]
    exact hrest

/-- C1: on a payload whose first message has type `text` and whose `from` is the `wa_id`
of a contact (the first such contact of the list), when the directory lookup of
`metadata.phone_number_id`, the channel resolution, the post and the mark-as-read all
succeed, the handler makes exactly these calls in this order: the lookup, the channel
resolution, one `postMessageAsUser` with the resolved channel's id, the message's
`text.body` and the contact's `profile.name`, then one `markWhatsappMessageAsRead` with
`metadata.phone_number_id` and the message's `id`; and it responds with status 200. -/
theorem handleWhatsappInitiatedMessage_happy_path {σ : Type} (fbClient : FbClient σ)
    (slackClient : SlackClient σ) (store : LinkedAccountStore σ) (writeErr : Option GoError)
    (bodyValue : Option JValue) (pre post : List JValue) (contact : JValue)
    (linkedAccount : LinkedAccount) (channel : Channel) (s0 s1 s2 s3 s4 : σ)
    (htype : GetStringBytes
        (Get bodyValue [str "entry", str "0", str "changes", str "0", str "value", str "messages", str "0"])
        [str "type"] = str "text")
    (hcontacts : GetArray bodyValue
        [str "entry", str "0", str "changes", str "0", str "value", str "contacts"] =
          pre ++ contact :: post)
    (hpre : ∀ c ∈ pre, GetStringBytes (some c) [str "wa_id"] ≠ GetStringBytes
        (Get bodyValue [str "entry", str "0", str "changes", str "0", str "value", str "messages", str "0"])
        [str "from"])
    (hfrom : GetStringBytes (some contact) [str "wa_id"] = GetStringBytes
        (Get bodyValue [str "entry", str "0", str "changes", str "0", str "value", str "messages", str "0"])
        [str "from"])
    (hlookup : store.lookupLinkedAccount
        (GetStringBytes bodyValue
          [str "entry", str "0", str "changes", str "0", str "value", str "metadata", str "phone_number_id"])
        s0 = (.ok linkedAccount, s1))
    (hchannel : slackClient.getSlackChannel linkedAccount
        { Name := GetStringBytes (some contact) [str "profile", str "name"],
          WhatsappPhoneNumber := GetStringBytes (some contact) [str "wa_id"] } s1 =
        (.ok channel, s2))
    (hpost : slackClient.postMessageAsUser channel.ID
        (GetStringBytes
          (Get bodyValue [str "entry", str "0", str "changes", str "0", str "value", str "messages", str "0"])
          [str "text", str "body"])
        (GetStringBytes (some contact) [str "profile", str "name"]) s2 = (.ok (), s3))
    (hread : fbClient.markWhatsappMessageAsRead
        (GetStringBytes bodyValue
          [str "entry", str "0", str "changes", str "0", str "value", str "metadata", str "phone_number_id"])
        (GetStringBytes
          (Get bodyValue [str "entry", str "0", str "changes", str "0", str "value", str "messages", str "0"])
          [str "id"]) s3 = (.ok (), s4)) :
    (handleWhatsappInitiatedMessage fbClient slackClient store (ResponseWriter.fresh writeErr)
        ⟨none, bodyValue⟩ s0).w.code = 200 ∧
    (handleWhatsappInitiatedMessage fbClient slackClient store (ResponseWriter.fresh writeErr)
        ⟨none, bodyValue⟩ s0).calls =
      [ Call.lookupLinkedAccount (GetStringBytes bodyValue
          [str "entry", str "0", str "changes", str "0", str "value", str "metadata", str "phone_number_id"]),
        Call.getSlackChannel linkedAccount
          { Name := GetStringBytes (some contact) [str "profile", str "name"],
            WhatsappPhoneNumber := GetStringBytes (some contact) [str "wa_id"] },
        Call.postMessageAsUser channel.ID
          (GetStringBytes
            (Get bodyValue [str "entry", str "0", str "changes", str "0", str "value", str "messages", str "0"])
            [str "text", str "body"])
          (GetStringBytes (some contact) [str "profile", str "name"]),
        Call.markWhatsappMessageAsRead
          (GetStringBytes bodyValue
            [str "entry", str "0", str "changes", str "0", str "value", str "metadata", str "phone_number_id"])
          (GetStringBytes
            (Get bodyValue [str "entry", str "0", str "changes", str "0", str "value", str "messages", str "0"])
            [str "id"]) ] ∧
    (handleWhatsappInitiatedMessage fbClient slackClient store (ResponseWriter.fresh writeErr)
        ⟨none, bodyValue⟩ s0).world = s4 := by
  have hdetails := getInitiatorDetailsLoop_first _ pre post contact hpre hfrom
  rw [← hcontacts] at hdetails
  have hb : (GetStringBytes
        (Get bodyValue [str "entry", str "0", str "changes", str "0", str "value", str "messages", str "0"])
        [str "type"] == str "text") = true := by
    rw [htype]; simp
  simp only [handleWhatsappInitiatedMessage, getBody, hb, if_true, hlookup, getInitiatorDetails,
    hdetails, hchannel, hpost, hread]
  simp [ResponseWriter.fresh, ResponseWriter.WriteHeader, ResponseWriter.code, StatusOK]

/-- The happy path of C1 on the payload and mocks of `TestHandleWhatsappInitiatedMessage`. -/
theorem handleWhatsappInitiatedMessage_happy_path_witness :
    (handleWhatsappInitiatedMessage mockFbClient (mockSlackClient []) mockLinkedAccountStore
        (ResponseWriter.fresh none) ⟨none, some (testPayload (str "text"))⟩ ()).w.code = 200 ∧
    (handleWhatsappInitiatedMessage mockFbClient (mockSlackClient []) mockLinkedAccountStore
        (ResponseWriter.fresh none) ⟨none, some (testPayload (str "text"))⟩ ()).calls =
      [ Call.lookupLinkedAccount (str "36825"),
        Call.getSlackChannel ⟨str "36825", str "slack_123"⟩ ⟨str "Bob", str "40742123123"⟩,
        Call.postMessageAsUser [] (str "message from whatsapp") (str "Bob"),
        Call.markWhatsappMessageAsRead (str "36825") (str "message_id_123") ] ∧
    (handleWhatsappInitiatedMessage mockFbClient (mockSlackClient []) mockLinkedAccountStore
        (ResponseWriter.fresh none) ⟨none, some (testPayload (str "text"))⟩ ()).world = () :=
  handleWhatsappInitiatedMessage_happy_path mockFbClient (mockSlackClient [])
    mockLinkedAccountStore none (some (testPayload (str "text"))) []
    [] (.object [
        (str "profile", .object [(str "name", .string (str "Bob"))]),
        (str "wa_id", .string (str "40742123123"))])
    ⟨str "36825", str "slack_123"⟩ ⟨[], [], []⟩ () () () () ()
    (by decide) rfl (by intro c hc; cases hc) (by decide) rfl rfl rfl rfl

/-- C6: for every request whose payload's first message does not have the type `text`
(another type, no type or no message), the handler calls neither the directory nor the
Slack client nor the WhatsApp client, and the response status is 200. -/
theorem handleWhatsappInitiatedMessage_ignores_non_text {σ : Type} (fbClient : FbClient σ)
    (slackClient : SlackClient σ) (store : LinkedAccountStore σ) (writeErr : Option GoError)
    (bodyValue : Option JValue) (s : σ)
    (htype : GetStringBytes
        (Get bodyValue [str "entry", str "0", str "changes", str "0", str "value", str "messages", str "0"])
        [str "type"] ≠ str "text") :
    (handleWhatsappInitiatedMessage fbClient slackClient store (ResponseWriter.fresh writeErr)
        ⟨none, bodyValue⟩ s).calls = [] ∧
    (handleWhatsappInitiatedMessage fbClient slackClient store (ResponseWriter.fresh writeErr)
        ⟨none, bodyValue⟩ s).w.code = 200 ∧
    (handleWhatsappInitiatedMessage fbClient slackClient store (ResponseWriter.fresh writeErr)
        ⟨none, bodyValue⟩ s).world = s := by
  have hb : (GetStringBytes
        (Get bodyValue [str "entry", str "0", str "changes", str "0", str "value", str "messages", str "0"])
        [str "type"] == str "text") = false := by
    simpa using htype
  simp only [handleWhatsappInitiatedMessage, getBody, hb]
  simp [ResponseWriter.fresh, ResponseWriter.code]

/-- C6 on the test payload with an `image` message. -/
theorem handleWhatsappInitiatedMessage_ignores_non_text_witness :
    (handleWhatsappInitiatedMessage mockFbClient (mockSlackClient []) mockLinkedAccountStore
        (ResponseWriter.fresh none) ⟨none, some (testPayload (str "image"))⟩ ()).calls = [] ∧
    (handleWhatsappInitiatedMessage mockFbClient (mockSlackClient []) mockLinkedAccountStore
        (ResponseWriter.fresh none) ⟨none, some (testPayload (str "image"))⟩ ()).w.code = 200 ∧
    (handleWhatsappInitiatedMessage mockFbClient (mockSlackClient []) mockLinkedAccountStore
        (ResponseWriter.fresh none) ⟨none, some (testPayload (str "image"))⟩ ()).world = () :=
  handleWhatsappInitiatedMessage_ignores_non_text mockFbClient (mockSlackClient [])
    mockLinkedAccountStore none (some (testPayload (str "image"))) () (by decide)

/-- C7 on the request `hub.mode=subscribe&hub.verify_token=secret&hub.challenge=xyz` with
the expected token `secret`: status 200 and body `xyz`. -/
theorem resolveWhatsappVerificationChallenge_spec_witness :
    ∃ w, resolveWhatsappVerificationChallenge (str "secret") (ResponseWriter.fresh none)
        (fun k => if k = str "hub.mode" then [str "subscribe"]
          else if k = str "hub.verify_token" then [str "secret"]
          else if k = str "hub.challenge" then [str "xyz"] else []) = some w ∧
      w.code = 200 ∧ w.body = str "xyz" := by
  obtain ⟨w, hw, hyes, _⟩ := resolveWhatsappVerificationChallenge_spec (str "secret")
    (fun k => if k = str "hub.mode" then [str "subscribe"]
      else if k = str "hub.verify_token" then [str "secret"]
      else if k = str "hub.challenge" then [str "xyz"] else []) none
    (str "subscribe") (str "secret") (str "xyz") (by decide) (by decide) (by decide)
  exact ⟨w, hw, (hyes ⟨rfl, rfl⟩).1, (hyes ⟨rfl, rfl⟩).2 rfl⟩

theorem GetStringBytes_eq_iff (v : Option JValue) (keys : List GoString) (x : GoString)
    (hx : x ≠ []) :
    GetStringBytes v keys = x ↔ Get v keys = some (.string x) := by
  unfold GetStringBytes
  constructor
  · intro h
    split at h
    · rename_i s hs
      rw [hs, h]
    · exact absurd h.symm hx
  · intro h
    rw [h]

theorem slack_classifiers_exclusive (bodyValue : Option JValue) :
    ¬ (isWebhookUrlVerificationRequest bodyValue = true ∧
        isRegularMessageEvent bodyValue = true) := by
  rintro ⟨hv, hr⟩
  simp only [isWebhookUrlVerificationRequest, beq_iff_eq] at hv
  simp only [isRegularMessageEvent, Bool.and_eq_true, beq_iff_eq] at hr
  rw [hr.1.1] at hv
  exact absurd hv (by decide)

/-- C8: the two classifiers of a Slack payload are never both true; a payload is a
regular message event exactly when its `type` is the string `event_callback`, its
`event.type` the string `message` and it has no `event.subtype`; the handler answers a
URL verification with the challenge responder and no call, starts a regular message event
with the channel fetch, and answers every other payload (a message event with a subtype
among them) with status 200, an empty body and no call to the Slack client, the WhatsApp
client or the directory. -/
theorem slack_payload_classification (bodyValue : Option JValue) :
    ¬ (isWebhookUrlVerificationRequest bodyValue = true ∧
        isRegularMessageEvent bodyValue = true) ∧
    (isRegularMessageEvent bodyValue = true ↔
      Get bodyValue [str "type"] = some (.string (str "event_callback")) ∧
      Get bodyValue [str "event", str "type"] = some (.string (str "message")) ∧
      Get bodyValue [str "event", str "subtype"] = none) ∧
    (Exists bodyValue [str "event", str "subtype"] = true →
      isRegularMessageEvent bodyValue = false) ∧
    (∀ (σ : Type) (fbClient : FbClient σ) (slackApi : SlackClient σ)
        (store : LinkedAccountStore σ) (writeErr : Option GoError) (s : σ),
      (isWebhookUrlVerificationRequest bodyValue = true →
        (handleSlackInitiatedMessage fbClient slackApi store (ResponseWriter.fresh writeErr)
            ⟨none, bodyValue⟩ s).w =
          resolveSlackVerificationChallenge (ResponseWriter.fresh writeErr) bodyValue ∧
        (handleSlackInitiatedMessage fbClient slackApi store (ResponseWriter.fresh writeErr)
            ⟨none, bodyValue⟩ s).calls = []) ∧
      (isRegularMessageEvent bodyValue = true →
        (handleSlackInitiatedMessage fbClient slackApi store (ResponseWriter.fresh writeErr)
            ⟨none, bodyValue⟩ s).calls.head? =
          some (Call.GetConversationInfo (GetStringBytes bodyValue [str "event", str "channel"]))) ∧
      (isWebhookUrlVerificationRequest bodyValue = false →
        isRegularMessageEvent bodyValue = false →
        (handleSlackInitiatedMessage fbClient slackApi store (ResponseWriter.fresh writeErr)
            ⟨none, bodyValue⟩ s).w.code = 200 ∧
        (handleSlackInitiatedMessage fbClient slackApi store (ResponseWriter.fresh writeErr)
            ⟨none, bodyValue⟩ s).w.body = [] ∧
        (handleSlackInitiatedMessage fbClient slackApi store (ResponseWriter.fresh writeErr)
            ⟨none, bodyValue⟩ s).calls = [] ∧
        (handleSlackInitiatedMessage fbClient slackApi store (ResponseWriter.fresh writeErr)
            ⟨none, bodyValue⟩ s).world = s)) := by
  have hreg : isRegularMessageEvent bodyValue = true ↔
      Get bodyValue [str "type"] = some (.string (str "event_callback")) ∧
      Get bodyValue [str "event", str "type"] = some (.string (str "message")) ∧
      Get bodyValue [str "event", str "subtype"] = none := by
    simp only [isRegularMessageEvent, Exists, Bool.and_eq_true, beq_iff_eq, Bool.not_eq_true']
    rw [GetStringBytes_eq_iff _ _ _ (by decide), GetStringBytes_eq_iff _ _ _ (by decide)]
    have hnone : (Get bodyValue [str "event", str "subtype"]).isSome = false ↔
        Get bodyValue [str "event", str "subtype"] = none := by
      cases Get bodyValue [str "event", str "subtype"] <;> simp
    rw [hnone]
    exact and_assoc
  have hexcl : isWebhookUrlVerificationRequest bodyValue = true →
      isRegularMessageEvent bodyValue = false := by
    intro hv
    rw [Bool.eq_false_iff]
    intro hr
    have h1 := (hreg.1 hr).1
    simp only [isWebhookUrlVerificationRequest, beq_iff_eq] at hv
    rw [GetStringBytes_eq_iff _ _ _ (by decide), h1] at hv
    simp only [Option.some.injEq, JValue.string.injEq] at hv
    exact absurd hv (by decide)
  refine ⟨?_, hreg, ?_, ?_⟩
  · rintro ⟨hv, hr⟩
    rw [hexcl hv] at hr
    cases hr
  · intro hsub
    rw [Bool.eq_false_iff]
    intro hr
    have h3 := (hreg.1 hr).2.2
    simp [Exists, h3] at hsub
  · intro σ fbClient slackApi store writeErr s
    refine ⟨?_, ?_, ?_⟩
    · intro hv
      simp [handleSlackInitiatedMessage, getBody, hv]
    · intro hr
      have hv : isWebhookUrlVerificationRequest bodyValue = false := by
        cases h : isWebhookUrlVerificationRequest bodyValue with
        | false => rfl
        | true => rw [hexcl h] at hr; cases hr
      simp only [handleSlackInitiatedMessage, getBody, hv, hr, if_true, Bool.false_eq_true,
        if_false]
      split
      · rfl
      · split
        · rfl
        · split
          · rfl
          · split <;> rfl
    · intro hv hr
      simp [handleSlackInitiatedMessage, getBody, hv, hr, ResponseWriter.fresh,
        ResponseWriter.code]

/-- C9: on a regular Slack message event, when the channel fetch fails, or the purpose of
the fetched channel does not decode as `WhatsappInitiatorDetails`, or the directory lookup
of `event.user` fails, the response status is 500 and `sendWhatsappMessage` is not
called; and the response status is 200 only when the fetch, the decoding, the lookup and
the send have all succeeded. -/
theorem handleSlackInitiatedMessage_no_send_after_failure {σ : Type} (fbClient : FbClient σ)
    (slackApi : SlackClient σ) (store : LinkedAccountStore σ) (writeErr : Option GoError)
    (bodyValue : Option JValue) (s : σ) (hreg : isRegularMessageEvent bodyValue = true) :
    ((∃ err s1, slackApi.GetConversationInfo
          (GetStringBytes bodyValue [str "event", str "channel"]) s = (.error err, s1)) →
      (handleSlackInitiatedMessage fbClient slackApi store (ResponseWriter.fresh writeErr)
          ⟨none, bodyValue⟩ s).w.code = 500 ∧
      ∀ a b c d, Call.sendWhatsappMessage a b c d ∉
        (handleSlackInitiatedMessage fbClient slackApi store (ResponseWriter.fresh writeErr)
          ⟨none, bodyValue⟩ s).calls) ∧
    (∀ channel s1, slackApi.GetConversationInfo
          (GetStringBytes bodyValue [str "event", str "channel"]) s = (.ok channel, s1) →
      (jsonUnmarshal channel.Purpose { Name := [], WhatsappPhoneNumber := [] }).2 ≠ none →
      (handleSlackInitiatedMessage fbClient slackApi store (ResponseWriter.fresh writeErr)
          ⟨none, bodyValue⟩ s).w.code = 500 ∧
      ∀ a b c d, Call.sendWhatsappMessage a b c d ∉
        (handleSlackInitiatedMessage fbClient slackApi store (ResponseWriter.fresh writeErr)
          ⟨none, bodyValue⟩ s).calls) ∧
    (∀ channel s1, slackApi.GetConversationInfo
          (GetStringBytes bodyValue [str "event", str "channel"]) s = (.ok channel, s1) →
      (jsonUnmarshal channel.Purpose { Name := [], WhatsappPhoneNumber := [] }).2 = none →
      (∃ err s2, store.lookupLinkedAccount (GetStringBytes bodyValue [str "event", str "user"]) s1 =
          (.error err, s2)) →
      (handleSlackInitiatedMessage fbClient slackApi store (ResponseWriter.fresh writeErr)
          ⟨none, bodyValue⟩ s).w.code = 500 ∧
      ∀ a b c d, Call.sendWhatsappMessage a b c d ∉
        (handleSlackInitiatedMessage fbClient slackApi store (ResponseWriter.fresh writeErr)
          ⟨none, bodyValue⟩ s).calls) ∧
    ((handleSlackInitiatedMessage fbClient slackApi store (ResponseWriter.fresh writeErr)
          ⟨none, bodyValue⟩ s).w.code = 200 →
      ∃ channel s1 details linkedAccount s2 s3,
        slackApi.GetConversationInfo
          (GetStringBytes bodyValue [str "event", str "channel"]) s = (.ok channel, s1) ∧
        jsonUnmarshal channel.Purpose { Name := [], WhatsappPhoneNumber := [] } = (details, none) ∧
        store.lookupLinkedAccount (GetStringBytes bodyValue [str "event", str "user"]) s1 =
          (.ok linkedAccount, s2) ∧
        fbClient.sendWhatsappMessage linkedAccount.WhatsappBusinessPhoneNumberId
          details.WhatsappPhoneNumber (GetStringBytes bodyValue [str "event", str "text"]) [] s2 =
          (.ok (), s3)) := by
  have hv : isWebhookUrlVerificationRequest bodyValue = false := by
    cases h : isWebhookUrlVerificationRequest bodyValue with
    | false => rfl
    | true => exact absurd ⟨h, hreg⟩ (slack_classifiers_exclusive bodyValue)
  have hcode : ∀ n, ((ResponseWriter.fresh writeErr).WriteHeader n).code = n := by
    intro n
    simp [ResponseWriter.fresh, ResponseWriter.WriteHeader, ResponseWriter.code]
  simp only [handleSlackInitiatedMessage, getBody, hv, hreg, if_true, Bool.false_eq_true,
    if_false, handleInternalError, StatusInternalServerError, StatusOK]
  rcases hfetch : slackApi.GetConversationInfo
      (GetStringBytes bodyValue [str "event", str "channel"]) s with ⟨r1, s1⟩
  cases r1 with
  | error e1 =>
    simp [hcode]
  | ok channel =>
    rcases hdec : jsonUnmarshal channel.Purpose { Name := [], WhatsappPhoneNumber := [] } with
      ⟨details, derr⟩
    cases derr with
    | some e2 =>
      simp [hcode, hdec]
    | none =>
      rcases hlook : store.lookupLinkedAccount
          (GetStringBytes bodyValue [str "event", str "user"]) s1 with ⟨r3, s2⟩
      cases r3 with
      | error e3 =>
        simp [hcode, hdec, hlook]
      | ok linkedAccount =>
        rcases hsend : fbClient.sendWhatsappMessage linkedAccount.WhatsappBusinessPhoneNumberId
            details.WhatsappPhoneNumber (GetStringBytes bodyValue [str "event", str "text"]) [] s2
          with ⟨r4, s3⟩
        cases r4 with
        | error e4 =>
          simp [hcode, hdec, hlook, hsend]
        | ok u =>
          simp [hcode, hdec, hlook, hsend]
          exact ⟨channel, s1, ⟨rfl, rfl⟩, details, hdec, linkedAccount, s2, hlook, s3, hsend⟩

/-- C9 on a message event whose channel has the purpose `not json`: status 500, no send. -/
theorem handleSlackInitiatedMessage_no_send_after_failure_witness :
    (handleSlackInitiatedMessage mockFbClient (mockSlackClient (str "not json"))
        mockLinkedAccountStore (ResponseWriter.fresh none) ⟨none, some slackMessagePayload⟩ ()).w.code
      = 500 ∧
    ∀ a b c d, Call.sendWhatsappMessage a b c d ∉
      (handleSlackInitiatedMessage mockFbClient (mockSlackClient (str "not json"))
        mockLinkedAccountStore (ResponseWriter.fresh none) ⟨none, some slackMessagePayload⟩ ()).calls :=
  (handleSlackInitiatedMessage_no_send_after_failure mockFbClient
    (mockSlackClient (str "not json")) mockLinkedAccountStore none (some slackMessagePayload) ()
    (by decide)).2.1 ⟨[], [], str "not json"⟩ () rfl (by decide)

/-- The page loop along a chain of pages: given as many iterations as there are pages, it
returns the first channel of the concatenated pages whose purpose contains the number, or
reports not found after requesting the cursor of every page. -/
theorem getExistingChannelLoop_chain {σ : Type} (t : SlackClientS σ) (s : σ)
    (slackUserId whatsAppPhoneNumber : GoString) (pages : List (List Channel × GoString)) :
    ∀ (cursor : GoString) (fuel : Nat),
      PageChain (fun c => t.Client.GetConversationsForUser
        { UserID := slackUserId, ExcludeArchived := true, Cursor := c } s) cursor pages →
      pages.length ≤ fuel →
      ∃ r, getExistingChannelLoop t s slackUserId whatsAppPhoneNumber fuel cursor = some r ∧
        r.err = none ∧
        (∀ ch, (pages.flatMap (·.1)).find?
            (fun c => stringsContains c.Purpose whatsAppPhoneNumber) = some ch →
          r.found = true ∧ r.channel = ch) ∧
        ((pages.flatMap (·.1)).find?
            (fun c => stringsContains c.Purpose whatsAppPhoneNumber) = none →
          r.found = false ∧ r.channel = Channel.zero ∧
            r.requested = cursor :: (pages.dropLast.map (·.2))) := by
  induction pages with
  | nil => intro cursor fuel h; exact absurd h (by simp [PageChain])
  | cons page rest ih =>
    intro cursor fuel hchain hfuel
    obtain ⟨chs, nxt⟩ := page
    cases fuel with
    | zero => simp at hfuel
    | succ fuel =>
      cases rest with
      | nil =>
        simp only [PageChain] at hchain
        obtain ⟨hfetch, hlast⟩ := hchain
        have hlast' : nxt = [] := hlast
        subst hlast'
        simp only [getExistingChannelLoop, hfetch, List.flatMap_cons, List.flatMap_nil,
          List.append_nil]
        cases hfind : chs.find? (fun c => stringsContains c.Purpose whatsAppPhoneNumber) with
        | some ch => exact ⟨_, rfl, rfl, fun ch' h => by cases h; exact ⟨rfl, rfl⟩, fun h => by cases h⟩
        | none =>
          refine ⟨⟨Channel.zero, none, false, [cursor]⟩, by simp, rfl,
            (fun ch' h => by cases h), fun _ => ?_⟩
          simp
      | cons next rest =>
        simp only [PageChain] at hchain
        obtain ⟨hfetch, hmore, hrest⟩ := hchain
        have hmore' : nxt ≠ [] := hmore
        obtain ⟨r, hr, herr, hsome, hnone⟩ := ih nxt fuel hrest (by simpa using hfuel)
        simp only [getExistingChannelLoop, hfetch, List.flatMap_cons, List.find?_append]
        cases hfind : chs.find? (fun c => stringsContains c.Purpose whatsAppPhoneNumber) with
        | some ch =>
          exact ⟨_, rfl, rfl, fun ch' h => by
            simp only [Option.or_some] at h; cases h; exact ⟨rfl, rfl⟩, fun h => by simp at h⟩
        | none =>
          have hne : (nxt != []) = true := by simpa using hmore'
          simp only [hne, if_true, hr, Option.map_some', Option.none_or]
          refine ⟨_, rfl, herr, ?_, ?_⟩
          · intro ch h
            exact hsome ch (by simpa [List.flatMap_cons] using h)
          · intro h
            have := hnone (by simpa [List.flatMap_cons] using h)
            refine ⟨this.1, this.2.1, ?_⟩
            simp [this.2.2]

/-- C5: along every finite cursor-linked sequence of pages that the listing returns
without error, and for every phone number, `getExistingChannel` (given at least as many
loop iterations as there are pages) returns without error; it reports found exactly when
some channel of some page has a purpose containing the number as a substring, and then
returns the first such channel in page-then-position order; and when it reports not
found it has requested every page of the sequence, once each and in order. -/
theorem getExistingChannel_traverses_all_pages {σ : Type} (t : SlackClientS σ) (s : σ)
    (slackUserId whatsAppPhoneNumber : GoString) (pages : List (List Channel × GoString))
    (fuel : Nat)
    (hchain : PageChain (fun c => t.Client.GetConversationsForUser
      { UserID := slackUserId, ExcludeArchived := true, Cursor := c } s) [] pages)
    (hfuel : pages.length ≤ fuel) :
    ∃ r, t.getExistingChannel s slackUserId whatsAppPhoneNumber fuel = some r ∧
      r.err = none ∧
      (r.found = true ↔
        ∃ ch ∈ pages.flatMap (·.1), whatsAppPhoneNumber <:+: ch.Purpose) ∧
      (r.found = true →
        ∃ pre post, pages.flatMap (·.1) = pre ++ r.channel :: post ∧
          (∀ c ∈ pre, ¬ whatsAppPhoneNumber <:+: c.Purpose) ∧
          whatsAppPhoneNumber <:+: r.channel.Purpose) ∧
      (r.found = false →
        r.channel = Channel.zero ∧ r.requested = [] :: (pages.dropLast.map (·.2)) ∧
          r.requested.length = pages.length) := by
  obtain ⟨r, hr, herr, hsome, hnone⟩ :=
    getExistingChannelLoop_chain t s slackUserId whatsAppPhoneNumber pages [] fuel hchain hfuel
  refine ⟨r, hr, herr, ?_⟩
  have hlen : pages ≠ [] := by
    intro h; rw [h] at hchain; simp [PageChain] at hchain
  cases hfind : (pages.flatMap (·.1)).find?
      (fun c => stringsContains c.Purpose whatsAppPhoneNumber) with
  | some ch =>
    obtain ⟨hfound, hch⟩ := hsome ch hfind
    obtain ⟨hp, pre, post, hsplit, hpre⟩ := List.find?_eq_some.1 hfind
    have hp' : whatsAppPhoneNumber <:+: ch.Purpose := by simpa [stringsContains] using hp
    refine ⟨⟨fun _ => ⟨ch, ?_, hp'⟩, fun _ => hfound⟩, fun _ => ?_, fun h => ?_⟩
    · rw [hsplit]; simp
    · rw [hch]
      refine ⟨pre, post, hsplit, fun c hc => ?_, hp'⟩
      have := hpre c hc
      simpa [stringsContains] using this
    · rw [hfound] at h; cases h
  | none =>
    obtain ⟨hfound, hzero, hreq⟩ := hnone hfind
    have hall := List.find?_eq_none.1 hfind
    refine ⟨⟨fun h => ?_, fun ⟨ch, hmem, hp⟩ => ?_⟩, fun h => ?_, fun _ => ⟨hzero, hreq, ?_⟩⟩
    · rw [hfound] at h; cases h
    · exact absurd (by simpa [stringsContains] using hp) (hall ch hmem)
    · rw [hfound] at h; cases h
    · rw [hreq]
      simp only [List.length_cons, List.length_map, List.length_dropLast]
      have : 0 < pages.length := List.length_pos.2 hlen
      omega

theorem le_foldr_max (l : List Nat) (x : Nat) (h : x ∈ l) : x ≤ l.foldr max 0 := by
  induction l with
  | nil => cases h
  | cons a l ih =>
    simp only [List.foldr_cons]
    rcases List.mem_cons.1 h with rfl | h
    · exact le_max_left _ _
    · exact le_trans (ih h) (le_max_right _ _)

/-- The id `CreateConversation` gives is the id of no channel of the workspace. -/
theorem Workspace.freshID_ne (s : Workspace) (c : WorkspaceChannel) (hc : c ∈ s.channels) :
    (c.channel.ID == s.freshID) = false := by
  rw [beq_eq_false_iff_ne]
  intro h
  have hlen : c.channel.ID.length =
      (s.channels.map (fun c => c.channel.ID.length)).foldr max 0 + 1 := by
    rw [h, Workspace.freshID, List.length_replicate]
  have hle := le_foldr_max (s.channels.map (fun c => c.channel.ID.length)) c.channel.ID.length
    (List.mem_map.2 ⟨c, hc, rfl⟩)
  omega

/-- On the model of the workspace the page loop finds the first channel of the listing,
from the cursor on, whose purpose contains the number, whatever the size of a page. -/
theorem workspace_getExistingChannelLoop (ToLower : GoString → GoString) (s : Workspace)
    (user phone : GoString) :
    ∀ (n : Nat) (cursor : GoString) (fuel : Nat),
      (s.conversationsForUser user true).length - cursor.length ≤ n → n < fuel →
      ∃ r, getExistingChannelLoop (workspaceClient ToLower) s user phone fuel cursor = some r ∧
        r.err = none ∧
        (∀ ch, ((s.conversationsForUser user true).drop cursor.length).find?
            (fun c => stringsContains c.Purpose phone) = some ch →
          r.found = true ∧ r.channel = ch) ∧
        (((s.conversationsForUser user true).drop cursor.length).find?
            (fun c => stringsContains c.Purpose phone) = none → r.found = false) := by
  have hget : ∀ p, (workspaceClient ToLower).Client.GetConversationsForUser p s =
      Workspace.GetConversationsForUser p s := fun _ => rfl
  intro n
  induction n with
  | zero =>
    intro cursor fuel hn hfuel
    cases fuel with
    | zero => omega
    | succ fuel =>
      have hdrop : (s.conversationsForUser user true).drop cursor.length = [] :=
        List.drop_eq_nil_of_le (by omega)
      have hif : ¬ (cursor.length + (s.perPage + 1) < (s.conversationsForUser user true).length) := by
        omega
      simp only [getExistingChannelLoop, hget, Workspace.GetConversationsForUser,
        hdrop, List.take_nil, List.find?_nil, if_neg hif]
      exact ⟨⟨Channel.zero, none, false, [cursor]⟩, by simp, rfl, (fun ch h => by cases h),
        fun _ => rfl⟩
  | succ n ih =>
    intro cursor fuel hn hfuel
    cases fuel with
    | zero => omega
    | succ fuel =>
      have hsplit : (s.conversationsForUser user true).drop cursor.length =
          ((s.conversationsForUser user true).drop cursor.length).take (s.perPage + 1) ++
            (s.conversationsForUser user true).drop (cursor.length + (s.perPage + 1)) := by
        rw [← List.drop_drop, List.take_append_drop]
      simp only [getExistingChannelLoop, hget, Workspace.GetConversationsForUser]
      cases hfind : (((s.conversationsForUser user true).drop cursor.length).take
          (s.perPage + 1)).find? (fun c => stringsContains c.Purpose phone) with
      | some ch =>
        refine ⟨_, rfl, rfl, ?_, ?_⟩
        · intro ch' h
          rw [hsplit, List.find?_append, hfind] at h
          simp only [Option.or_some, Option.some.injEq] at h
          exact ⟨rfl, h⟩
        · intro h
          rw [hsplit, List.find?_append, hfind] at h
          simp at h
      | none =>
        by_cases hif : cursor.length + (s.perPage + 1) < (s.conversationsForUser user true).length
        · have hne : (List.replicate (cursor.length + (s.perPage + 1)) 0x63 != ([] : GoString)) = true := by
            rw [← Nat.add_assoc, List.replicate_succ]
            rfl
          obtain ⟨r, hr, herr, hsome, hnone⟩ := ih
            (List.replicate (cursor.length + (s.perPage + 1)) 0x63) fuel
            (by rw [List.length_replicate]; omega) (by omega)
          rw [List.length_replicate] at hsome hnone
          simp only [if_pos hif, hne, if_true, hr, Option.map_some']
          refine ⟨_, rfl, herr, ?_, ?_⟩
          · intro ch h
            rw [hsplit, List.find?_append, hfind, Option.none_or] at h
            exact hsome ch h
          · intro h
            rw [hsplit, List.find?_append, hfind, Option.none_or] at h
            exact hnone h
        · simp only [if_neg hif]
          refine ⟨⟨Channel.zero, none, false, [cursor]⟩, by simp, rfl, ?_, fun _ => rfl⟩
          intro ch h
          rw [hsplit, List.find?_append, hfind, Option.none_or,
            List.drop_eq_nil_of_le (by omega)] at h
          cases h

/-- On the model of the workspace `getExistingChannel`, given more iterations than the
workspace has channels, returns without error, and finds the first channel of the user
whose purpose contains the number. -/
theorem workspace_getExistingChannel (ToLower : GoString → GoString) (s : Workspace)
    (user phone : GoString) (fuel : Nat) (hfuel : s.channels.length < fuel) :
    ∃ r, (workspaceClient ToLower).getExistingChannel s user phone fuel = some r ∧
      r.err = none ∧
      (∀ ch, (s.conversationsForUser user true).find?
          (fun c => stringsContains c.Purpose phone) = some ch →
        r.found = true ∧ r.channel = ch) ∧
      ((s.conversationsForUser user true).find?
          (fun c => stringsContains c.Purpose phone) = none → r.found = false) := by
  have hlen : (s.conversationsForUser user true).length ≤ s.channels.length := by
    simp only [Workspace.conversationsForUser, List.length_map]
    exact List.length_filter_le _ _
  have h := workspace_getExistingChannelLoop ToLower s user phone s.channels.length [] fuel
    (by simp only [List.length_nil]; omega) hfuel
  simpa [SlackClientS.getExistingChannel] using h

theorem Workspace.find_fresh (s : Workspace) (x : WorkspaceChannel)
    (hx : x.channel.ID = s.freshID) :
    (s.channels ++ [x]).find? (fun c => c.channel.ID == s.freshID) = some x := by
  have hnone : s.channels.find? (fun c => c.channel.ID == s.freshID) = none := by
    rw [List.find?_eq_none]
    intro c hc
    rw [Workspace.freshID_ne s c hc]
    exact Bool.false_ne_true
  rw [List.find?_append, hnone, Option.none_or]
  exact List.find?_cons_of_pos _ (by rw [hx]; exact beq_self_eq_true _)

theorem Workspace.map_fresh (s : Workspace) (x : WorkspaceChannel)
    (f : WorkspaceChannel → WorkspaceChannel) (hx : x.channel.ID = s.freshID) :
    (s.channels ++ [x]).map (fun c => if c.channel.ID == s.freshID then f c else c) =
      s.channels ++ [f x] := by
  rw [List.map_append]
  congr 1
  · conv_rhs => rw [← List.map_id s.channels]
    apply List.map_congr_left
    intro c hc
    rw [Workspace.freshID_ne s c hc]
    rfl
  · simp [hx]

theorem Workspace.invite_fresh (s : Workspace) (x : WorkspaceChannel) (user : GoString)
    (hx : x.channel.ID = s.freshID) :
    Workspace.InviteUsersToConversation s.freshID user { s with channels := s.channels ++ [x] } =
      (.ok x.channel,
        { s with channels := s.channels ++ [{ x with members := x.members ++ [user] }] }) := by
  simp only [Workspace.InviteUsersToConversation]
  rw [Workspace.find_fresh s x hx,
    Workspace.map_fresh s x (fun c => { c with members := c.members ++ [user] }) hx]

theorem Workspace.setPurpose_fresh (s : Workspace) (x : WorkspaceChannel) (purpose : GoString)
    (hx : x.channel.ID = s.freshID) :
    Workspace.SetPurposeOfConversation s.freshID purpose
        { s with channels := s.channels ++ [x] } =
      (.ok { x.channel with Purpose := purpose },
        { s with channels := s.channels ++
          [{ x with channel := { x.channel with Purpose := purpose } }] }) := by
  simp only [Workspace.SetPurposeOfConversation]
  rw [Workspace.find_fresh s x hx,
    Workspace.map_fresh s x (fun c => { c with channel := { c.channel with Purpose := purpose } }) hx]

/-- On the model of the workspace `initializeNewChannel` succeeds: it adds one channel,
with a fresh id, the linked Slack user as its member and the serialized details as its
purpose, and returns that channel. -/
theorem workspace_initializeNewChannel (ToLower : GoString → GoString) (s : Workspace)
    (d : WhatsappInitiatorDetails) (la : LinkedAccount) (data : GoString)
    (hdata : jsonMarshal d = .ok data) :
    (workspaceClient ToLower).initializeNewChannel s d la =
      (.ok { ID := s.freshID, Name := getDefaultSlackChannelName ToLower d, Purpose := data },
        { s with channels := s.channels ++
            [⟨{ ID := s.freshID, Name := getDefaultSlackChannelName ToLower d, Purpose := data },
              [la.SlackUserId], false⟩] }) := by
  have hcreate : (workspaceClient ToLower).Client.CreateConversation
      (getDefaultSlackChannelName ToLower d) s =
      (.ok { ID := s.freshID, Name := getDefaultSlackChannelName ToLower d, Purpose := [] },
        { s with channels := s.channels ++
          [⟨{ ID := s.freshID, Name := getDefaultSlackChannelName ToLower d, Purpose := [] },
            [], false⟩] }) := rfl
  have hinvite := Workspace.invite_fresh s
    ⟨{ ID := s.freshID, Name := getDefaultSlackChannelName ToLower d, Purpose := [] }, [], false⟩
    la.SlackUserId rfl
  have hpurpose := Workspace.setPurpose_fresh s
    ⟨{ ID := s.freshID, Name := getDefaultSlackChannelName ToLower d, Purpose := [] },
      [la.SlackUserId], false⟩ data rfl
  have hi : ∀ a b w, (workspaceClient ToLower).Client.InviteUsersToConversation a b w =
      Workspace.InviteUsersToConversation a b w := fun _ _ _ => rfl
  have hp : ∀ a b w, (workspaceClient ToLower).Client.SetPurposeOfConversation a b w =
      Workspace.SetPurposeOfConversation a b w := fun _ _ _ => rfl
  have ht : (workspaceClient ToLower).ToLower = ToLower := rfl
  simp only [SlackClientS.initializeNewChannel, ht, hcreate, hi, hp, hinvite, hdata,
    List.nil_append]
  rw [hpurpose]

/-- A string of bytes that `appendString` leaves unescaped is written as it is. -/
theorem appendStringLoop_htmlSafe (p : GoString) :
    ∀ fuel, p.length ≤ fuel → (∀ b ∈ p, htmlSafe b = true) → appendStringLoop fuel p = p := by
  induction p with
  | nil => intro fuel _ _; cases fuel <;> rfl
  | cons b rest ih =>
    intro fuel hfuel hsafe
    cases fuel with
    | zero => simp at hfuel
    | succ fuel =>
      have hb := hsafe b (by simp)
      have hlt : b < 0x80 := by
        simp only [htmlSafe, Bool.and_eq_true, decide_eq_true_eq] at hb
        exact hb.1.1.1.1.1.2
      simp only [appendStringLoop, if_pos hlt, hb, if_true]
      rw [ih fuel (by simpa using hfuel) (fun x hx => hsafe x (by simp [hx]))]
      rfl

/-- The serialized details contain the phone number as it is when the number is made of
bytes that `appendString` leaves unescaped, decimal digits among them. -/
theorem jsonMarshal_contains_phone (d : WhatsappInitiatorDetails) (data : GoString)
    (hdata : jsonMarshal d = .ok data)
    (hsafe : ∀ b ∈ d.WhatsappPhoneNumber, htmlSafe b = true) :
    d.WhatsappPhoneNumber <:+: data := by
  simp only [jsonMarshal, Except.ok.injEq] at hdata
  rw [← hdata, appendString, appendString,
    appendStringLoop_htmlSafe d.WhatsappPhoneNumber _ (le_refl _) hsafe]
  refine ⟨str "\x7b\"name\":" ++ ([0x22] ++ appendStringLoop d.Name.length d.Name ++ [0x22]) ++
    str ",\"whatsapp_phone_number\":" ++ [0x22], [0x22] ++ str "\x7d", ?_⟩
  simp only [List.append_assoc]

/-- C4, as stated, fails: for the initiator `{bob, <}` on an empty workspace, the first
call creates a channel whose purpose holds the number escaped (`\u003c`), so the second
call does not find it and creates a second channel, with another id. -/
theorem getSlackChannel_idempotent_counterexample :
    ∃ c1 s1 c2 s2,
      (workspaceClient (fun x => x)).getSlackChannel ⟨[], 0⟩ ⟨str "36825", str "slack_123"⟩
          ⟨str "bob", str "<"⟩ 5 = some (.ok c1, s1) ∧
      (workspaceClient (fun x => x)).getSlackChannel s1 ⟨str "36825", str "slack_123"⟩
          ⟨str "bob", str "<"⟩ 5 = some (.ok c2, s2) ∧
      c1.ID ≠ c2.ID ∧ s1.channels.length = 1 ∧ s2.channels.length = 2 := by
  refine ⟨_, _, _, _, rfl, rfl, ?_, ?_, ?_⟩ <;> decide

/-- C4, amended: over the model of the Slack workspace, for every linked account and
every initiator details whose serialized metadata contains the phone number as a
substring, two successive calls of `getSlackChannel` with the same arguments (given more
loop iterations than the workspace has channels after the first call) both succeed, the
second returns a channel with the id of the first, and the second leaves the workspace as
it is: it creates no channel. -/
theorem getSlackChannel_idempotent (ToLower : GoString → GoString) (s : Workspace)
    (la : LinkedAccount) (d : WhatsappInitiatorDetails) (data : GoString) (fuel : Nat)
    (hdata : jsonMarshal d = .ok data)
    (hphone : d.WhatsappPhoneNumber <:+: data)
    (hfuel : s.channels.length + 1 < fuel) :
    ∃ c1 s1 c2,
      (workspaceClient ToLower).getSlackChannel s la d fuel = some (.ok c1, s1) ∧
      (workspaceClient ToLower).getSlackChannel s1 la d fuel = some (.ok c2, s1) ∧
      c2.ID = c1.ID := by
  obtain ⟨r, hr, herr, hsome, hnone⟩ := workspace_getExistingChannel ToLower s la.SlackUserId
    d.WhatsappPhoneNumber fuel (by omega)
  cases hfind : (s.conversationsForUser la.SlackUserId true).find?
      (fun c => stringsContains c.Purpose d.WhatsappPhoneNumber) with
  | some ch =>
    obtain ⟨hfound, hch⟩ := hsome ch hfind
    have hcall : (workspaceClient ToLower).getSlackChannel s la d fuel = some (.ok ch, s) := by
      simp only [SlackClientS.getSlackChannel, hr, herr, hfound, hch]
      rfl
    exact ⟨ch, s, ch, hcall, hcall, rfl⟩
  | none =>
    have hfound := hnone hfind
    have hinit := workspace_initializeNewChannel ToLower s d la data hdata
    have hcall1 : (workspaceClient ToLower).getSlackChannel s la d fuel =
        some (.ok { ID := s.freshID, Name := getDefaultSlackChannelName ToLower d, Purpose := data },
          { s with channels := s.channels ++
            [⟨{ ID := s.freshID, Name := getDefaultSlackChannelName ToLower d, Purpose := data },
              [la.SlackUserId], false⟩] }) := by
      simp only [SlackClientS.getSlackChannel, hr, herr, hfound, hinit]
      rfl
    have hlisting : Workspace.conversationsForUser
        { s with channels := s.channels ++
            [⟨{ ID := s.freshID, Name := getDefaultSlackChannelName ToLower d, Purpose := data },
              [la.SlackUserId], false⟩] } la.SlackUserId true =
        s.conversationsForUser la.SlackUserId true ++
          [{ ID := s.freshID, Name := getDefaultSlackChannelName ToLower d, Purpose := data }] := by
      simp [Workspace.conversationsForUser, List.filter_append]
    have hfuel2 : (s.channels ++
        [(⟨{ ID := s.freshID, Name := getDefaultSlackChannelName ToLower d, Purpose := data },
          [la.SlackUserId], false⟩ : WorkspaceChannel)]).length < fuel := by
      rw [List.length_append, List.length_singleton]
      exact hfuel
    obtain ⟨r2, hr2, herr2, hsome2, _⟩ := workspace_getExistingChannel ToLower
      { s with channels := s.channels ++
          [⟨{ ID := s.freshID, Name := getDefaultSlackChannelName ToLower d, Purpose := data },
            [la.SlackUserId], false⟩] }
      la.SlackUserId d.WhatsappPhoneNumber fuel hfuel2
    have hfind2 := hsome2
      { ID := s.freshID, Name := getDefaultSlackChannelName ToLower d, Purpose := data }
      (by
        rw [hlisting, List.find?_append, hfind, Option.none_or]
        exact List.find?_cons_of_pos _ (by simpa [stringsContains] using hphone))
    refine ⟨_, _, _, hcall1, ?_, rfl⟩
    simp only [SlackClientS.getSlackChannel, hr2, herr2, hfind2.1, hfind2.2]
    rfl

/-- The amended C4 on an empty workspace with pages of one channel, for the linked
account and the contact of the test scenario. -/
theorem getSlackChannel_idempotent_witness :
    ∃ c1 s1 c2,
      (workspaceClient (fun x => x)).getSlackChannel ⟨[], 0⟩ ⟨str "36825", str "slack_123"⟩
          ⟨str "Bob", str "40742123123"⟩ 2 = some (.ok c1, s1) ∧
      (workspaceClient (fun x => x)).getSlackChannel s1 ⟨str "36825", str "slack_123"⟩
          ⟨str "Bob", str "40742123123"⟩ 2 = some (.ok c2, s1) ∧
      c2.ID = c1.ID :=
  getSlackChannel_idempotent (fun x => x) ⟨[], 0⟩ ⟨str "36825", str "slack_123"⟩
    ⟨str "Bob", str "40742123123"⟩ _ 2 rfl
    (jsonMarshal_contains_phone ⟨str "Bob", str "40742123123"⟩ _ rfl (by decide)) (by decide)

/-- C5 on a workspace whose listing has two pages: the channel of the contact is on the
second page and is found. -/
theorem getExistingChannel_traverses_all_pages_witness :
    ∃ r, (workspaceClient (fun x => x)).getExistingChannel twoPageWorkspace (str "slack_123")
        (str "40742123123") 2 = some r ∧ r.err = none ∧ r.found = true := by
  obtain ⟨r, hr, herr, hiff, _, _⟩ := getExistingChannel_traverses_all_pages
    (workspaceClient (fun x => x)) twoPageWorkspace (str "slack_123") (str "40742123123")
    [ ([{ ID := str "C1", Name := str "ann-40700000000",
          Purpose := str "\x7b\"name\":\"Ann\",\"whatsapp_phone_number\":\"40700000000\"\x7d" }],
        [0x63]),
      ([{ ID := str "C2", Name := str "bob-40742123123",
          Purpose := str "\x7b\"name\":\"Bob\",\"whatsapp_phone_number\":\"40742123123\"\x7d" }],
        []) ]
    2 ⟨by decide, by decide, by decide, by decide⟩ (by decide)
  exact ⟨r, hr, herr, hiff.2
    ⟨{ ID := str "C2", Name := str "bob-40742123123",
       Purpose := str "\x7b\"name\":\"Bob\",\"whatsapp_phone_number\":\"40742123123\"\x7d" },
      by decide, by decide⟩⟩

theorem encodeRune_two (n : Nat) (h1 : 0x80 ≤ n) (h2 : n < 0x800) :
    encodeRune n = [0xC0 + n / 64, 0x80 + n % 64] := by
  unfold encodeRune
  rw [if_neg (by omega), if_pos h2]

theorem encodeRune_three (n : Nat) (hv : IsScalar n) (h1 : 0x800 ≤ n) (h2 : n < 0x10000) :
    encodeRune n = [0xE0 + n / 4096, 0x80 + n / 64 % 64, 0x80 + n % 64] := by
  unfold encodeRune
  unfold IsScalar at hv
  rw [if_neg (by omega), if_neg (by omega), if_neg (by omega), if_pos h2]

theorem encodeRune_four (n : Nat) (hv : IsScalar n) (h1 : 0x10000 ≤ n) :
    encodeRune n =
      [0xF0 + n / 262144, 0x80 + n / 4096 % 64, 0x80 + n / 64 % 64, 0x80 + n % 64] := by
  unfold encodeRune
  unfold IsScalar at hv
  rw [if_neg (by omega), if_neg (by omega), if_neg (by omega), if_neg (by omega)]

/-- Decoding the encoding of a scalar value beyond ASCII gives it back, with its width. -/
theorem decodeRune_encodeRune (n : Nat) (hv : IsScalar n) (h : 0x80 ≤ n) (rest : GoString) :
    decodeRune (encodeRune n ++ rest) = (n, (encodeRune n).length) := by
  have hv' := hv
  unfold IsScalar at hv'
  by_cases h2 : n < 0x800
  · rw [encodeRune_two n h h2]
    simp only [List.cons_append, List.nil_append, decodeRune, List.length_cons, List.length_nil]
    rw [if_neg (by omega), if_pos (by omega), if_pos (by omega)]
    congr 1
    omega
  · by_cases h3 : n < 0x10000
    · rw [encodeRune_three n hv (by omega) h3]
      simp only [List.cons_append, List.nil_append, decodeRune, List.length_cons, List.length_nil]
      rw [if_neg (by omega), if_neg (by omega), if_pos (by omega), if_pos]
      · congr 1
        omega
      · refine ⟨?_, ?_, by omega, by omega⟩
        · split <;> omega
        · split <;> omega
    · rw [encodeRune_four n hv (by omega)]
      simp only [List.cons_append, List.nil_append, decodeRune, List.length_cons, List.length_nil]
      rw [if_neg (by omega), if_neg (by omega), if_neg (by omega), if_pos (by omega), if_pos]
      · congr 1
        omega
      · refine ⟨?_, ?_, by omega, by omega, by omega, by omega⟩
        · split <;> omega
        · split <;> omega

/-- The encoding of a scalar value beyond ASCII: a first byte, at least one more, and all
of them from `0x80` on. -/
theorem encodeRune_shape (n : Nat) (hv : IsScalar n) (h : 0x80 ≤ n) :
    ∃ b bs, encodeRune n = b :: bs ∧ bs ≠ [] ∧ ∀ x ∈ b :: bs, 0x80 ≤ x := by
  by_cases h2 : n < 0x800
  · refine ⟨_, _, encodeRune_two n h h2, by simp, ?_⟩
    simp only [List.mem_cons, List.mem_singleton, List.not_mem_nil, or_false]
    rintro x (rfl | rfl) <;> omega
  · by_cases h3 : n < 0x10000
    · refine ⟨_, _, encodeRune_three n hv (by omega) h3, by simp, ?_⟩
      simp only [List.mem_cons, List.mem_singleton, List.not_mem_nil, or_false]
      rintro x (rfl | rfl | rfl) <;> omega
    · refine ⟨_, _, encodeRune_four n hv (by omega), by simp, ?_⟩
      simp only [List.mem_cons, List.mem_singleton, List.not_mem_nil, or_false]
      rintro x (rfl | rfl | rfl | rfl) <;> omega

theorem char_isScalar (c : Char) : IsScalar c.toNat := c.valid

theorem str_eq_encodeRunes (s : String) : str s = encodeRunes (s.toList.map Char.toNat) := by
  simp [str, encodeRunes, List.flatMap_map]

/-- On a well-formed string `appendString` writes, between the quotes, the escape of each
rune in turn. -/
theorem appendStringLoop_encodeRunes (rs : List Nat) (hrs : ∀ r ∈ rs, IsScalar r) :
    ∀ fuel, (encodeRunes rs).length ≤ fuel →
      appendStringLoop fuel (encodeRunes rs) = escapeRunes rs := by
  induction rs with
  | nil => intro fuel _; cases fuel <;> rfl
  | cons r rs ih =>
    intro fuel hfuel
    have hr := hrs r (by simp)
    have ih' := ih (fun x hx => hrs x (by simp [hx]))
    simp only [encodeRunes, escapeRunes, List.flatMap_cons] at hfuel ⊢
    by_cases h : r < 0x80
    · have henc : encodeRune r = [r] := by unfold encodeRune; rw [if_pos h]
      rw [henc] at hfuel ⊢
      cases fuel with
      | zero => simp at hfuel
      | succ fuel =>
        simp only [List.cons_append, List.nil_append, appendStringLoop, if_pos h, escapeRune]
        congr 1
        exact ih' fuel (by simpa [encodeRunes] using hfuel)
    · obtain ⟨b, bs, henc, _, hbytes⟩ := encodeRune_shape r hr (by omega)
      have hdec := decodeRune_encodeRune r hr (by omega) (rs.flatMap encodeRune)
      rw [henc] at hfuel hdec
      have hb : ¬ b < 0x80 := by
        have := hbytes b (by simp)
        omega
      have hlen2 : ¬ (r = RuneError ∧ (b :: bs).length = 1) := by
        rintro ⟨_, hl⟩
        cases bs with
        | nil => contradiction
        | cons _ _ => simp at hl
      cases fuel with
      | zero => simp at hfuel
      | succ fuel =>
        have hrest : appendStringLoop fuel (encodeRunes rs) = escapeRunes rs :=
          ih' fuel (by
            simp only [List.length_append, List.length_cons] at hfuel
            simp only [encodeRunes]
            omega)
        rw [henc]
        simp only [List.cons_append] at hdec ⊢
        simp only [appendStringLoop, if_neg hb, hdec, if_neg hlen2]
        have hdrop : List.drop (b :: bs).length (b :: (bs ++ List.flatMap rs encodeRune)) =
            encodeRunes rs := by
          rw [← List.cons_append, List.drop_left]
          rfl
        have htake : List.take (b :: bs).length (b :: (bs ++ List.flatMap rs encodeRune)) =
            b :: bs := by
          rw [← List.cons_append, List.take_left]
        rw [hdrop, htake, hrest]
        simp only [escapeRune, if_neg h, henc]
        by_cases h28 : r = 0x2028 ∨ r = 0x2029
        · rw [if_pos h28, if_pos h28]
          rfl
        · rw [if_neg h28, if_neg h28]
          rfl

theorem scanString_plain (c : Nat) (t : GoString) (h1 : c ≠ 0x22) (h2 : c ≠ 0x5C)
    (h3 : ¬ c < 0x20) :
    scanString (c :: t) = (scanString t).map fun p => (c :: p.1, p.2) := by
  rw [scanString.eq_def]
  simp only [if_neg h1, if_neg h2, if_neg h3]

theorem scanString_quote (t : GoString) : scanString (0x22 :: t) = some ([], t) := by
  rw [scanString.eq_def]
  simp

theorem scanString_simple_escape (e : Nat) (t : GoString)
    (he : e = 0x62 ∨ e = 0x66 ∨ e = 0x6E ∨ e = 0x72 ∨ e = 0x74 ∨ e = 0x5C ∨ e = 0x2F ∨ e = 0x22) :
    scanString (0x5C :: e :: t) = (scanString t).map fun p => (0x5C :: e :: p.1, p.2) := by
  rw [scanString.eq_def]
  simp only [if_neg (show ¬ ((0x5C : Nat) = 0x22) by decide), if_true, if_pos he]

theorem scanString_u4 (h1 h2 h3 h4 : Nat) (t : GoString)
    (hh : (isHexDigit h1 && isHexDigit h2 && isHexDigit h3 && isHexDigit h4) = true) :
    scanString (0x5C :: 0x75 :: h1 :: h2 :: h3 :: h4 :: t) =
      (scanString t).map fun p => (0x5C :: 0x75 :: h1 :: h2 :: h3 :: h4 :: p.1, p.2) := by
  rw [scanString.eq_def]
  simp only [if_neg (show ¬ ((0x5C : Nat) = 0x22) by decide), if_true,
    if_neg (show ¬ ((0x75 : Nat) = 0x62 ∨ (0x75 : Nat) = 0x66 ∨ (0x75 : Nat) = 0x6E ∨
    (0x75 : Nat) = 0x72 ∨ (0x75 : Nat) = 0x74 ∨ (0x75 : Nat) = 0x5C ∨ (0x75 : Nat) = 0x2F ∨
    (0x75 : Nat) = 0x22) by decide), hh]

theorem hex_digit (n : Nat) (h : n < 16) :
    isHexDigit (hex n) = true ∧ hexValue (hex n) = some n := by
  interval_cases n <;> exact ⟨by decide, by decide⟩

theorem scanString_high (bs : GoString) (hbs : ∀ x ∈ bs, 0x80 ≤ x) (t : GoString) :
    scanString (bs ++ t) = (scanString t).map fun p => (bs ++ p.1, p.2) := by
  induction bs with
  | nil => simp
  | cons b bs ih =>
    have hb := hbs b (by simp)
    rw [List.cons_append, scanString_plain b _ (by omega) (by omega) (by omega),
      ih (fun x hx => hbs x (by simp [hx]))]
    simp [Option.map_map, Function.comp_def]

theorem scanString_escapeByte (r : Nat) (hr : r < 0x80) (t : GoString) :
    scanString (escapeByte r ++ t) = (scanString t).map fun p => (escapeByte r ++ p.1, p.2) := by
  unfold escapeByte
  split
  · rename_i h
    exact scanString_simple_escape r t (by omega)
  · split
    · exact scanString_simple_escape _ t (by decide)
    · split
      · exact scanString_simple_escape _ t (by decide)
      · split
        · exact scanString_simple_escape _ t (by decide)
        · split
          · exact scanString_simple_escape _ t (by decide)
          · split
            · exact scanString_simple_escape _ t (by decide)
            · have ha := (hex_digit (r / 16) (by omega)).1
              have hb := (hex_digit (r % 16) (by omega)).1
              exact scanString_u4 _ _ _ _ t (by rw [ha, hb]; decide)

/-- The scanner goes over the escape of a rune and on with the rest of the literal. -/
theorem scanString_escapeRune (r : Nat) (hr : IsScalar r) (t : GoString) :
    scanString (escapeRune r ++ t) = (scanString t).map fun p => (escapeRune r ++ p.1, p.2) := by
  unfold escapeRune
  split
  · rename_i hlt
    split
    · rename_i hsafe
      simp only [htmlSafe, Bool.and_eq_true, decide_eq_true_eq, bne_iff_ne, ne_eq] at hsafe
      exact scanString_plain r t hsafe.1.1.1.1.2 hsafe.1.1.1.2 (by omega)
    · exact scanString_escapeByte r hlt t
  · rename_i hge
    split
    · rename_i h28
      have hd := (hex_digit (r % 16) (by omega)).1
      have hs : str "\\u202" = [0x5C, 0x75, 0x32, 0x30, 0x32] := by decide
      rw [hs]
      exact scanString_u4 _ _ _ _ t (by rw [hd]; decide)
    · obtain ⟨b, bs, henc, _, hbytes⟩ := encodeRune_shape r hr (by omega)
      rw [henc]
      exact scanString_high _ hbytes t

/-- The scanner finds the end of the literal `appendString` writes for a well-formed
string. -/
theorem scanString_escapeRunes (rs : List Nat) (hrs : ∀ r ∈ rs, IsScalar r) (rest : GoString) :
    scanString (escapeRunes rs ++ 0x22 :: rest) = some (escapeRunes rs, rest) := by
  induction rs with
  | nil => exact scanString_quote rest
  | cons r rs ih =>
    have ih' := ih (fun x hx => hrs x (by simp [hx]))
    simp only [escapeRunes, List.flatMap_cons, List.append_assoc] at ih' ⊢
    rw [scanString_escapeRune r (hrs r (by simp)), ih']
    rfl


theorem unquoteLoop_plain (c : Nat) (t : GoString) (fuel : Nat) (h0 : c < 0x80)
    (h1 : c ≠ 0x22) (h2 : c ≠ 0x5C) (h3 : ¬ c < 0x20) :
    unquoteLoop (fuel + 1) (c :: t) = (unquoteLoop fuel t).map (c :: ·) := by
  rw [unquoteLoop.eq_def]
  simp only [if_neg h2, if_neg (show ¬ (c = 0x22 ∨ c < 0x20) by omega), if_pos h0]

theorem unquoteLoop_simple_escape (e v : Nat) (t : GoString) (fuel : Nat)
    (he : (e = 0x22 ∧ v = 0x22) ∨ (e = 0x5C ∧ v = 0x5C) ∨ (e = 0x62 ∧ v = 0x08) ∨
      (e = 0x66 ∧ v = 0x0C) ∨ (e = 0x6E ∧ v = 0x0A) ∨ (e = 0x72 ∧ v = 0x0D) ∨
      (e = 0x74 ∧ v = 0x09)) :
    unquoteLoop (fuel + 1) (0x5C :: e :: t) = (unquoteLoop fuel t).map (v :: ·) := by
  rw [unquoteLoop, if_pos rfl]
  rcases he with ⟨rfl, rfl⟩ | ⟨rfl, rfl⟩ | ⟨rfl, rfl⟩ | ⟨rfl, rfl⟩ | ⟨rfl, rfl⟩ | ⟨rfl, rfl⟩ |
    ⟨rfl, rfl⟩ <;> simp

theorem getu4_digits (h1 h2 h3 h4 a b c d : Nat) (t : GoString)
    (ha : hexValue h1 = some a) (hb : hexValue h2 = some b) (hc : hexValue h3 = some c)
    (hd : hexValue h4 = some d) :
    getu4 (0x5C :: 0x75 :: h1 :: h2 :: h3 :: h4 :: t) =
      some (((a * 16 + b) * 16 + c) * 16 + d) := by
  simp only [getu4, ha, hb, hc, hd]

theorem unquoteLoop_u4 (h1 h2 h3 h4 v : Nat) (t : GoString) (fuel : Nat)
    (hv : getu4 (0x5C :: 0x75 :: h1 :: h2 :: h3 :: h4 :: t) = some v)
    (hs : isSurrogate v = false) :
    unquoteLoop (fuel + 1) (0x5C :: 0x75 :: h1 :: h2 :: h3 :: h4 :: t) =
      (unquoteLoop fuel t).map (encodeRune v ++ ·) := by
  rw [unquoteLoop, if_pos rfl]
  simp [hv, hs]

theorem unquoteLoop_high (r : Nat) (hr : IsScalar r) (h : 0x80 ≤ r) (t : GoString) (fuel : Nat) :
    unquoteLoop (fuel + 1) (encodeRune r ++ t) = (unquoteLoop fuel t).map (encodeRune r ++ ·) := by
  obtain ⟨b, bs, henc, _, hbytes⟩ := encodeRune_shape r hr h
  have hdec := decodeRune_encodeRune r hr h t
  have hb := hbytes b (by simp)
  rw [henc] at hdec ⊢
  rw [List.cons_append] at hdec ⊢
  rw [unquoteLoop.eq_def]
  simp only [if_neg (show ¬ b = 0x5C by omega), if_neg (show ¬ (b = 0x22 ∨ b < 0x20) by omega),
    if_neg (show ¬ b < 0x80 by omega), hdec]
  rw [← List.cons_append, List.drop_left, henc]

theorem unquoteLoop_escapeByte (r : Nat) (hr : r < 0x80) (hsafe : htmlSafe r = false)
    (t : GoString) (fuel : Nat) :
    unquoteLoop (fuel + 1) (escapeByte r ++ t) = (unquoteLoop fuel t).map (r :: ·) := by
  unfold escapeByte
  split
  · rename_i h
    rcases h with h | h
    · subst h
      exact unquoteLoop_simple_escape _ _ t fuel (by decide)
    · subst h
      exact unquoteLoop_simple_escape _ _ t fuel (by decide)
  · split
    · rename_i h; subst h
      exact unquoteLoop_simple_escape _ _ t fuel (by decide)
    · split
      · rename_i h; subst h
        exact unquoteLoop_simple_escape _ _ t fuel (by decide)
      · split
        · rename_i h; subst h
          exact unquoteLoop_simple_escape _ _ t fuel (by decide)
        · split
          · rename_i h; subst h
            exact unquoteLoop_simple_escape _ _ t fuel (by decide)
          · split
            · rename_i h; subst h
              exact unquoteLoop_simple_escape _ _ t fuel (by decide)
            · have ha := (hex_digit (r / 16) (by omega)).2
              have hb := (hex_digit (r % 16) (by omega)).2
              have hv := getu4_digits 0x30 0x30 (hex (r / 16)) (hex (r % 16)) 0 0 (r / 16) (r % 16) t
                (by decide) (by decide) ha hb
              have hval : ((0 * 16 + 0) * 16 + r / 16) * 16 + r % 16 = r := by omega
              rw [hval] at hv
              have hs : isSurrogate r = false := by
                simp only [isSurrogate, Bool.and_eq_false_iff, decide_eq_false_iff_not]
                left; omega
              have henc : encodeRune r = [r] := by unfold encodeRune; rw [if_pos hr]
              have := unquoteLoop_u4 _ _ _ _ r t fuel hv hs
              rw [henc] at this
              exact this

/-- Unquoting the escape of a rune gives the bytes of the rune. -/
theorem unquoteLoop_escapeRune (r : Nat) (hr : IsScalar r) (t : GoString) (fuel : Nat) :
    unquoteLoop (fuel + 1) (escapeRune r ++ t) = (unquoteLoop fuel t).map (encodeRune r ++ ·) := by
  unfold escapeRune
  split
  · rename_i hlt
    have henc : encodeRune r = [r] := by unfold encodeRune; rw [if_pos hlt]
    rw [henc]
    split
    · rename_i hsafe
      simp only [htmlSafe, Bool.and_eq_true, decide_eq_true_eq, bne_iff_ne, ne_eq] at hsafe
      exact unquoteLoop_plain r t fuel hlt hsafe.1.1.1.1.2 hsafe.1.1.1.2 (by omega)
    · rename_i hsafe
      exact unquoteLoop_escapeByte r hlt (by simpa using hsafe) t fuel
  · rename_i hge
    split
    · rename_i h28
      have hs : str "\\u202" = [0x5C, 0x75, 0x32, 0x30, 0x32] := by decide
      rw [hs]
      have hd := (hex_digit (r % 16) (by omega)).2
      have hv := getu4_digits 0x32 0x30 0x32 (hex (r % 16)) 2 0 2 (r % 16) t
        (by decide) (by decide) (by decide) hd
      have hval : ((2 * 16 + 0) * 16 + 2) * 16 + r % 16 = r := by omega
      rw [hval] at hv
      have hsur : isSurrogate r = false := by
        simp only [isSurrogate, Bool.and_eq_false_iff, decide_eq_false_iff_not]
        left; omega
      exact unquoteLoop_u4 _ _ _ _ r t fuel hv hsur
    · exact unquoteLoop_high r hr (by omega) t fuel

theorem escapeRune_length_pos (r : Nat) (hr : IsScalar r) : 0 < (escapeRune r).length := by
  unfold escapeRune
  split
  · split
    · simp
    · unfold escapeByte
      split_ifs <;> simp
  · split
    · simp [List.length_append]
    · obtain ⟨b, bs, henc, _, _⟩ := encodeRune_shape r hr (by omega)
      rw [henc]
      simp

/-- Unquoting the literal `appendString` writes for a well-formed string gives the string
back. -/
theorem unquote_escapeRunes (rs : List Nat) (hrs : ∀ r ∈ rs, IsScalar r) :
    ∀ fuel, (escapeRunes rs).length < fuel →
      unquoteLoop fuel (escapeRunes rs) = some (encodeRunes rs) := by
  induction rs with
  | nil =>
    intro fuel hfuel
    cases fuel with
    | zero => simp at hfuel
    | succ fuel => rfl
  | cons r rs ih =>
    intro fuel hfuel
    have hr := hrs r (by simp)
    have hpos := escapeRune_length_pos r hr
    cases fuel with
    | zero => simp at hfuel
    | succ fuel =>
      simp only [escapeRunes, encodeRunes, List.flatMap_cons, List.length_append] at hfuel ⊢
      rw [unquoteLoop_escapeRune r hr]
      have := ih (fun x hx => hrs x (by simp [hx])) fuel (by
        simp only [escapeRunes]
        omega)
      simp only [escapeRunes, encodeRunes] at this
      rw [this]
      rfl

theorem skipSpace_of_not_space (c : Nat) (t : GoString) (h : isSpace c = false) :
    skipSpace (c :: t) = c :: t := by
  rw [skipSpace, h]
  rfl

/-- A string literal as a value. -/
theorem parseValue_string (fuel depth : Nat) (t raw v rest : GoString)
    (hscan : scanString t = some (raw, rest)) (hunq : unquote raw = some v) :
    parseValue (fuel + 1) depth (0x22 :: t) = some (.string v, rest) := by
  rw [parseValue, skipSpace_of_not_space _ _ (by decide)]
  simp only [if_neg (show ¬ ((0x22 : Nat) = 0x7B) by decide),
    if_neg (show ¬ ((0x22 : Nat) = 0x5B) by decide), if_true, hscan, hunq, Option.map_some']

/-- The last member of an object, a key with a string value before the closing brace. -/
theorem parseMembers_last (fuel depth : Nat) (t rawKey key t1 raw v rest : GoString)
    (hkey : scanString t = some (rawKey, 0x3A :: 0x22 :: t1)) (hk : unquote rawKey = some key)
    (hscan : scanString t1 = some (raw, 0x7D :: rest)) (hunq : unquote raw = some v) :
    parseMembers (fuel + 2) depth (0x22 :: t) = some ([(key, .string v)], rest) := by
  rw [parseMembers, skipSpace_of_not_space _ _ (by decide)]
  simp only [hkey, hk, skipSpace_of_not_space 0x3A _ (by decide),
    parseValue_string fuel depth t1 raw v _ hscan hunq,
    skipSpace_of_not_space 0x7D _ (by decide)]

/-- A member of an object that is not the last, a key with a string value before a comma. -/
theorem parseMembers_more (fuel depth : Nat) (t rawKey key t1 raw v t2 : GoString)
    (hkey : scanString t = some (rawKey, 0x3A :: 0x22 :: t1)) (hk : unquote rawKey = some key)
    (hscan : scanString t1 = some (raw, 0x2C :: t2)) (hunq : unquote raw = some v) :
    parseMembers (fuel + 2) depth (0x22 :: t) =
      (parseMembers (fuel + 1) depth t2).map fun p => ((key, .string v) :: p.1, p.2) := by
  rw [parseMembers, skipSpace_of_not_space _ _ (by decide)]
  simp only [hkey, hk, skipSpace_of_not_space 0x3A _ (by decide),
    parseValue_string fuel depth t1 raw v _ hscan hunq,
    skipSpace_of_not_space 0x2C _ (by decide)]

/-- An object that starts with a key. -/
theorem parseValue_object (fuel depth : Nat) (t : GoString) :
    parseValue (fuel + 1) (depth + 1) (0x7B :: 0x22 :: t) =
      (parseMembers fuel depth (0x22 :: t)).map fun p => (.object p.1, p.2) := by
  rw [parseValue, skipSpace_of_not_space _ _ (by decide)]
  simp only [if_true, skipSpace_of_not_space 0x22 _ (by decide)]

theorem appendString_encodeRunes (rs : List Nat) (hrs : ∀ r ∈ rs, IsScalar r) :
    appendString (encodeRunes rs) = 0x22 :: (escapeRunes rs ++ [0x22]) := by
  rw [appendString, appendStringLoop_encodeRunes rs hrs _ (le_refl _)]
  rfl

theorem unquote_of_escapeRunes (rs : List Nat) (hrs : ∀ r ∈ rs, IsScalar r) :
    unquote (escapeRunes rs) = some (encodeRunes rs) :=
  unquote_escapeRunes rs hrs _ (Nat.lt_succ_self _)

/-- The serialized details parse as an object with the two fields. -/
theorem parseJSON_marshal (n p : List Nat) (hn : ∀ r ∈ n, IsScalar r) (hp : ∀ r ∈ p, IsScalar r) :
    parseJSON (str "\x7b\"name\":" ++ appendString (encodeRunes n) ++
        str ",\"whatsapp_phone_number\":" ++ appendString (encodeRunes p) ++ str "\x7d") =
      some (.object [(str "name", .string (encodeRunes n)),
        (str "whatsapp_phone_number", .string (encodeRunes p))]) := by
  have h1 : str "\x7b\"name\":" = 0x7B :: 0x22 :: (str "name" ++ [0x22, 0x3A]) := by decide
  have h2 : str ",\"whatsapp_phone_number\":" =
      0x2C :: 0x22 :: (str "whatsapp_phone_number" ++ [0x22, 0x3A]) := by decide
  have h3 : str "\x7d" = [0x7D] := by decide
  have hk1 : ∀ t, scanString (str "name" ++ 0x22 :: t) = some (str "name", t) := fun t =>
    scanString_escapeRunes [0x6E, 0x61, 0x6D, 0x65] (by unfold IsScalar; decide) t
  have hk2 : ∀ t, scanString (str "whatsapp_phone_number" ++ 0x22 :: t) =
      some (str "whatsapp_phone_number", t) := fun t =>
    scanString_escapeRunes (str "whatsapp_phone_number") (by unfold IsScalar; decide) t
  have hu1 : unquote (str "name") = some (str "name") := by decide
  have hu2 : unquote (str "whatsapp_phone_number") = some (str "whatsapp_phone_number") := by
    decide
  have hdata : str "\x7b\"name\":" ++ appendString (encodeRunes n) ++
        str ",\"whatsapp_phone_number\":" ++ appendString (encodeRunes p) ++ str "\x7d" =
      0x7B :: 0x22 :: (str "name" ++ 0x22 :: 0x3A :: 0x22 :: (escapeRunes n ++ 0x22 :: 0x2C ::
        0x22 :: (str "whatsapp_phone_number" ++ 0x22 :: 0x3A :: 0x22 ::
          (escapeRunes p ++ 0x22 :: 0x7D :: [])))) := by
    rw [h1, h2, h3, appendString_encodeRunes n hn, appendString_encodeRunes p hp]
    simp only [List.cons_append, List.nil_append, List.append_assoc]
  rw [hdata, parseJSON]
  obtain ⟨f, hf⟩ : ∃ f, 2 * (0x7B :: 0x22 :: (str "name" ++ 0x22 :: 0x3A :: 0x22 ::
      (escapeRunes n ++ 0x22 :: 0x2C :: 0x22 :: (str "whatsapp_phone_number" ++ 0x22 :: 0x3A ::
        0x22 :: (escapeRunes p ++ 0x22 :: 0x7D :: []))))).length + 2 = f + 4 :=
    ⟨2 * (0x7B :: 0x22 :: (str "name" ++ 0x22 :: 0x3A :: 0x22 ::
      (escapeRunes n ++ 0x22 :: 0x2C :: 0x22 :: (str "whatsapp_phone_number" ++ 0x22 :: 0x3A ::
        0x22 :: (escapeRunes p ++ 0x22 :: 0x7D :: []))))).length - 2, by
      simp only [List.length_cons]; omega⟩
  rw [hf]
  have hdepth : maxNestingDepth = 9999 + 1 := rfl
  rw [hdepth, parseValue_object,
    parseMembers_more (f + 1) 9999 _ (str "name") (str "name") _ (escapeRunes n)
      (encodeRunes n) _ (hk1 _) hu1 (scanString_escapeRunes n hn _) (unquote_of_escapeRunes n hn),
    parseMembers_last f 9999 _ (str "whatsapp_phone_number") (str "whatsapp_phone_number") _
      (escapeRunes p) (encodeRunes p) _ (hk2 _) hu2 (scanString_escapeRunes p hp _)
      (unquote_of_escapeRunes p hp)]
  rfl

/-- Decoding the serialized details gives them back, when both strings are well-formed
UTF-8. -/
theorem jsonUnmarshal_marshal (n p : List Nat) (hn : ∀ r ∈ n, IsScalar r)
    (hp : ∀ r ∈ p, IsScalar r) (v : WhatsappInitiatorDetails) :
    ∃ data, jsonMarshal ⟨encodeRunes n, encodeRunes p⟩ = .ok data ∧
      jsonUnmarshal data v = (⟨encodeRunes n, encodeRunes p⟩, none) := by
  refine ⟨_, rfl, ?_⟩
  have hf1 : findField (str "name") = some .Name := by decide
  have hf2 : findField (str "whatsapp_phone_number") = some .WhatsappPhoneNumber := by decide
  simp only [jsonUnmarshal, parseJSON_marshal n p hn hp, List.foldl_cons, List.foldl_nil,
    storeMember, hf1, hf2]

/-- C10, as stated, fails: for the details `{Bob, 4\xff}`, whose number ends in a byte that
is not well-formed UTF-8, the serialization holds the escape of U+FFFD in place of the
byte, and decoding it gives a number that ends in the three bytes of U+FFFD. -/
theorem metadata_round_trip_counterexample :
    ∃ data, jsonMarshal ⟨str "Bob", [0x34, 0xFF]⟩ = .ok data ∧
      jsonUnmarshal data ⟨[], []⟩ = (⟨str "Bob", [0x34, 0xEF, 0xBF, 0xBD]⟩, none) ∧
      (⟨str "Bob", [0x34, 0xEF, 0xBF, 0xBD]⟩ : WhatsappInitiatorDetails) ≠
        ⟨str "Bob", [0x34, 0xFF]⟩ :=
  ⟨_, rfl, by decide, by decide⟩

/-- C10, amended: for every `WhatsappInitiatorDetails` whose name and number are
well-formed UTF-8 (the bytes of any two texts), the string `initializeNewChannel` writes
as the purpose of the channel, the JSON serialization of the details, is decoded by
`json.Unmarshal`, as `handleSlackInitiatedMessage` calls it, without error and to the
same details, whatever the struct held before. -/
theorem metadata_round_trip (name number : String) (v : WhatsappInitiatorDetails) :
    ∃ data, jsonMarshal ⟨str name, str number⟩ = .ok data ∧
      jsonUnmarshal data v = (⟨str name, str number⟩, none) := by
  rw [str_eq_encodeRunes name, str_eq_encodeRunes number]
  apply jsonUnmarshal_marshal
  · intro r hr
    obtain ⟨c, _, rfl⟩ := List.mem_map.1 hr
    exact char_isScalar c
  · intro r hr
    obtain ⟨c, _, rfl⟩ := List.mem_map.1 hr
    exact char_isScalar c

theorem first_eq_none (values : List GoString) : first values = none ↔ values = [] := by
  cases values <;> simp [first]

/-- The handler panics exactly when the query string lacks one of the three parameters. -/
theorem resolveWhatsappVerificationChallenge_none_iff (expected : GoString)
    (w : ResponseWriter) (query : Values) :
    resolveWhatsappVerificationChallenge expected w query = none ↔
      query (str "hub.mode") = [] ∨ query (str "hub.verify_token") = [] ∨
        query (str "hub.challenge") = [] := by
  unfold resolveWhatsappVerificationChallenge
  cases hm : first (query (str "hub.mode")) with
  | none => simp [(first_eq_none _).1 hm]
  | some mode =>
    have hm' : query (str "hub.mode") ≠ [] := by
      intro h; rw [h] at hm; cases hm
    cases ht : first (query (str "hub.verify_token")) with
    | none => simp [(first_eq_none _).1 ht]
    | some token =>
      have ht' : query (str "hub.verify_token") ≠ [] := by
        intro h; rw [h] at ht; cases ht
      cases hc : first (query (str "hub.challenge")) with
      | none => simp [(first_eq_none _).1 hc]
      | some challenge =>
        have hc' : query (str "hub.challenge") ≠ [] := by
          intro h; rw [h] at hc; cases hc
        simp only [hm', ht', hc', or_self, iff_false]
        split
        · split <;> simp
        · simp

/-- C11 fails on the code: the route of the handshake is taken by a `GET` request
whatever its query string, and on a request that lacks one of `hub.mode`,
`hub.verify_token` and `hub.challenge` the handler indexes an empty slice and panics,
with no response of status 200 or 403: so on a request with no query string, and on one
that lacks `hub.challenge` only. The handler panics exactly when a parameter is missing;
when the three are present it completes with status 200 or 403. -/
theorem resolveWhatsappVerificationChallenge_not_total :
    (whatsappVerificationRouteMatches (str "GET") (fun _ => []) = true ∧
      resolveWhatsappVerificationChallenge (str "secret") (ResponseWriter.fresh none)
        (fun _ => []) = none) ∧
    (whatsappVerificationRouteMatches (str "GET")
        (fun k => if k = str "hub.mode" then [str "subscribe"]
          else if k = str "hub.verify_token" then [str "secret"] else []) = true ∧
      resolveWhatsappVerificationChallenge (str "secret") (ResponseWriter.fresh none)
        (fun k => if k = str "hub.mode" then [str "subscribe"]
          else if k = str "hub.verify_token" then [str "secret"] else []) = none) ∧
    (∀ (expected : GoString) (writeErr : Option GoError) (query : Values),
      (resolveWhatsappVerificationChallenge expected (ResponseWriter.fresh writeErr) query = none ↔
        query (str "hub.mode") = [] ∨ query (str "hub.verify_token") = [] ∨
          query (str "hub.challenge") = []) ∧
      (∀ w, resolveWhatsappVerificationChallenge expected (ResponseWriter.fresh writeErr) query =
          some w → w.code = 200 ∨ w.code = 403)) := by
  refine ⟨⟨by decide, by decide⟩, ⟨by decide, by decide⟩, ?_⟩
  intro expected writeErr query
  refine ⟨resolveWhatsappVerificationChallenge_none_iff expected _ query, ?_⟩
  intro w hw
  unfold resolveWhatsappVerificationChallenge at hw
  cases hm : first (query (str "hub.mode")) with
  | none => rw [hm] at hw; cases hw
  | some mode =>
    cases ht : first (query (str "hub.verify_token")) with
    | none => rw [hm, ht] at hw; cases hw
    | some token =>
      cases hc : first (query (str "hub.challenge")) with
      | none => rw [hm, ht, hc] at hw; cases hw
      | some challenge =>
        rw [hm, ht, hc] at hw
        simp only at hw
        split at hw
        · cases writeErr with
          | none =>
            simp [ResponseWriter.fresh, ResponseWriter.WriteHeader, ResponseWriter.Write] at hw
            subst hw
            left; rfl
          | some e =>
            simp [ResponseWriter.fresh, ResponseWriter.WriteHeader, ResponseWriter.Write] at hw
            subst hw
            left; rfl
        · simp [ResponseWriter.fresh, ResponseWriter.WriteHeader, StatusForbidden] at hw
          subst hw
          right; rfl

end Wup2Slack
